import Mathlib

/-!
# FishProxy firmware: register protocol and actuator state machines

A shallow embedding of `FishProxy/src/main.h` and `FishProxy/src/main.cpp`.

* The global variables of `main.cpp` are the fields of `State`.
* Every call into the Arduino core (pin, interrupt, LEDC and Wire calls) is
  recorded as an `Effect`; a procedure returns the list of effects it performs
  in program order.  `Hw` interprets such a list as a pin configuration.
* `millis()` is an input: each procedure that calls it takes the value read.
  `unsigned long` is 32 bits wide on the target, so `millis() - actionStartTime`
  is the subtraction modulo `2^32` (`usub`).
* `Wire.read()` is an input: `receiveEvent` and `requestEvent` take the bytes read.
* `digitalRead` is an input: an interrupt routine takes the level on each pin.
* `Serial` output is diagnostic only and is not recorded.
-/

namespace FishProxy

/-! ## main.h -/

abbrev MOUTH_REG : Nat := 0x01
abbrev CONTROL_REG : Nat := 0x02
abbrev TAIL_REG : Nat := 0x03
abbrev HEAD_REG : Nat := 0x04

abbrev MOUTH_STATUS : Nat := 0x50
abbrev CONTROL_STATUS : Nat := 0x51
abbrev TAIL_STATUS : Nat := 0x52
abbrev HEAD_STATUS : Nat := 0x53

abbrev MOTOR_IDLE : Nat := 0x00
abbrev MOTOR_UP_REQUESTED : Nat := 0x01
abbrev MOTOR_UP : Nat := 0x02
abbrev MOTOR_DOWN_REQUESTED : Nat := 0x03
abbrev MOTOR_DOWN : Nat := 0x04

abbrev CONTROL_IDLE : Nat := 0x10
abbrev CONTROL_REQUESTED : Nat := 0x11
abbrev CONTROL_UNDER_CONTROL : Nat := 0x12
abbrev CONTROL_LEAVE : Nat := 0x13

abbrev ERROR_PLEASE_WAIT : Nat := 0x20

abbrev pwmFrequency : Nat := 5000
abbrev pwmResolution : Nat := 8

abbrev interruptPinTailIn : Nat := 34
abbrev tailPinOut : Nat := 13
abbrev tailPwmChannel : Nat := 0

abbrev interruptPinMouthIn : Nat := 35
abbrev mouthPinOut : Nat := 25
abbrev mouthPwmChannel : Nat := 1

abbrev interruptPinHeadIn : Nat := 32
abbrev headPinOut : Nat := 26
abbrev headPwmChannel : Nat := 2

abbrev relay1Out : Nat := 18
abbrev relay2Out : Nat := 4

abbrev MOUTH_STARTUP_TIME : Nat := 250
abbrev MOUTH_SPRING_TIME : Nat := 200
abbrev HEAD_STARTUP_TIME : Nat := 600
abbrev HEAD_SPRING_TIME : Nat := 1500
abbrev TAIL_STARTUP_TIME : Nat := 250
abbrev TAIL_SPRING_TIME : Nat := 125

/-- The enumeration `MotorState` of `main.h`, in declaration order. -/
inductive MotorState where
  | UNKNOWN_STATE
  | IDLE
  | UP
  | UP_REQUESTED
  | DOWN
  | DOWN_REQUESTED
  deriving DecidableEq, Repr

/-! ## Arduino core calls, as recorded effects -/

/-- Logic levels passed to `digitalWrite`. -/
abbrev LOW : Nat := 0
abbrev HIGH : Nat := 1

/-- The pin modes passed to `pinMode`. -/
inductive PinMode where
  | INPUT
  | OUTPUT
  deriving DecidableEq, Repr

/-- The trigger passed to `attachInterrupt`; the program only uses `CHANGE`. -/
inductive IntMode where
  | CHANGE
  deriving DecidableEq, Repr

/-- The three interrupt service routines of `main.cpp`. -/
inductive Isr where
  | handleInterruptTail
  | handleInterruptMouth
  | handleInterruptHead
  deriving DecidableEq, Repr

/-- One call into the Arduino core. -/
inductive Effect where
  | pinMode (pin : Nat) (mode : PinMode)
  | digitalWrite (pin : Nat) (val : Nat)
  | digitalRead (pin : Nat)
  | attachInterrupt (irq : Nat) (isr : Isr) (mode : IntMode)
  | detachInterrupt (irq : Nat)
  | ledcSetup (channel freq resolution : Nat)
  | ledcAttachPin (pin channel : Nat)
  | ledcDetachPin (pin : Nat)
  | ledcWrite (channel duty : Nat)
  | wireBegin (address : Nat)
  | wireOnReceive
  | wireOnRequest
  | wireWrite (byte : Nat)
  deriving DecidableEq, Repr

/-- On the target `digitalPinToInterrupt` maps a GPIO number to itself. -/
def digitalPinToInterrupt (pin : Nat) : Nat := pin

/-- The pin configuration that a sequence of core calls establishes. -/
structure Hw where
  /-- Direction of each pin, once `pinMode` was called on it. -/
  mode : Nat → Option PinMode
  /-- Level last written to each pin with `digitalWrite`. -/
  level : Nat → Option Nat
  /-- Routine and trigger attached to each interrupt line. -/
  isr : Nat → Option (Isr × IntMode)
  /-- LEDC channel attached to each pin. -/
  pwmPin : Nat → Option Nat
  /-- Frequency and resolution of each LEDC channel, once set up. -/
  pwmCfg : Nat → Option (Nat × Nat)
  /-- Duty last written to each LEDC channel. -/
  duty : Nat → Option Nat
  /-- Own address on the bus, once `Wire.begin` was called. -/
  wireAddr : Option Nat
  /-- Bytes written to the bus so far, oldest first. -/
  wireOut : List Nat

/-- The configuration after reset: nothing configured, attached or written. -/
def Hw.powerOn : Hw :=
  { mode := fun _ => none, level := fun _ => none, isr := fun _ => none,
    pwmPin := fun _ => none, pwmCfg := fun _ => none, duty := fun _ => none,
    wireAddr := none, wireOut := [] }

/-- The configuration after one more core call. -/
def applyEffect (h : Hw) : Effect → Hw
  | .pinMode pin m => { h with mode := fun p => if p = pin then some m else h.mode p }
  | .digitalWrite pin v => { h with level := fun p => if p = pin then some v else h.level p }
  | .digitalRead _ => h
  | .attachInterrupt irq f m => { h with isr := fun p => if p = irq then some (f, m) else h.isr p }
  | .detachInterrupt irq => { h with isr := fun p => if p = irq then none else h.isr p }
  | .ledcSetup ch fr res =>
      { h with pwmCfg := fun c => if c = ch then some (fr, res) else h.pwmCfg c }
  | .ledcAttachPin pin ch => { h with pwmPin := fun p => if p = pin then some ch else h.pwmPin p }
  | .ledcDetachPin pin => { h with pwmPin := fun p => if p = pin then none else h.pwmPin p }
  | .ledcWrite ch d => { h with duty := fun c => if c = ch then some d else h.duty c }
  | .wireBegin a => { h with wireAddr := some a }
  | .wireOnReceive => h
  | .wireOnRequest => h
  | .wireWrite b => { h with wireOut := h.wireOut ++ [b] }

/-- The configuration after a sequence of core calls. -/
def runEffects (h : Hw) (tr : List Effect) : Hw := tr.foldl applyEffect h

/-! ## main.cpp -/

/-- The global variables of `main.cpp`. -/
structure State where
  mouthState : Nat
  tailState : Nat
  headState : Nat
  controlledExternally : Nat
  headMotorState : MotorState
  tailMotorState : MotorState
  mouthMotorState : MotorState
  actionStartTimeHead : Nat
  actionStartTimeMouth : Nat
  actionStartTimeTail : Nat
  deriving DecidableEq, Repr

/-- The initialisers of the global variables. -/
def boot : State :=
  { mouthState := MOTOR_IDLE, tailState := MOTOR_IDLE, headState := MOTOR_IDLE,
    controlledExternally := CONTROL_IDLE,
    headMotorState := .IDLE, tailMotorState := .IDLE, mouthMotorState := .IDLE,
    actionStartTimeHead := 0, actionStartTimeMouth := 0, actionStartTimeTail := 0 }

/-- The number of values of `unsigned long`. -/
abbrev ULONG_MOD : Nat := 4294967296

/-- Subtraction of `unsigned long` values, as in `millis() - actionStartTime`. -/
def usub (a b : Nat) : Nat := (a % ULONG_MOD + (ULONG_MOD - b % ULONG_MOD)) % ULONG_MOD

/-- One run of `handleInterruptTail`.  `digitalRead p` is the level the core
reads on pin `p`; the routine assigns no global. -/
def handleInterruptTail (s : State) (digitalRead : Nat → Nat) : State × List Effect :=
  (s, [ .digitalRead interruptPinTailIn,
        .digitalWrite tailPinOut (digitalRead interruptPinTailIn) ])

/-- One run of `handleInterruptMouth`. -/
def handleInterruptMouth (s : State) (digitalRead : Nat → Nat) : State × List Effect :=
  (s, [ .digitalRead interruptPinMouthIn,
        .digitalWrite mouthPinOut (digitalRead interruptPinMouthIn) ])

/-- One run of `handleInterruptHead`. -/
def handleInterruptHead (s : State) (digitalRead : Nat → Nat) : State × List Effect :=
  (s, [ .digitalRead interruptPinHeadIn,
        .digitalWrite headPinOut (digitalRead interruptPinHeadIn) ])

/-- The body of the routine that an `attachInterrupt` call names. -/
def Isr.run : Isr → State → (Nat → Nat) → State × List Effect
  | .handleInterruptTail => FishProxy.handleInterruptTail
  | .handleInterruptMouth => FishProxy.handleInterruptMouth
  | .handleInterruptHead => FishProxy.handleInterruptHead

def DetachInterrupts : List Effect :=
  [ .detachInterrupt (digitalPinToInterrupt interruptPinTailIn),
    .detachInterrupt (digitalPinToInterrupt interruptPinMouthIn),
    .detachInterrupt (digitalPinToInterrupt interruptPinHeadIn) ]

def switchAudio (externalControl : Bool) : List Effect :=
  [ .digitalWrite relay1Out (if externalControl then LOW else HIGH),
    .digitalWrite relay2Out (if externalControl then LOW else HIGH) ]

def AssumeControl : List Effect :=
  DetachInterrupts ++
  [ .ledcAttachPin tailPinOut tailPwmChannel,
    .ledcAttachPin headPinOut headPwmChannel,
    .ledcAttachPin mouthPinOut mouthPwmChannel ] ++
  switchAudio true

def AttachInterrupts : List Effect :=
  [ .pinMode tailPinOut .OUTPUT,
    .pinMode headPinOut .OUTPUT,
    .pinMode mouthPinOut .OUTPUT,
    .pinMode interruptPinTailIn .INPUT,
    .pinMode interruptPinMouthIn .INPUT,
    .pinMode interruptPinHeadIn .INPUT,
    .attachInterrupt (digitalPinToInterrupt interruptPinTailIn) .handleInterruptTail .CHANGE,
    .attachInterrupt (digitalPinToInterrupt interruptPinMouthIn) .handleInterruptMouth .CHANGE,
    .attachInterrupt (digitalPinToInterrupt interruptPinHeadIn) .handleInterruptHead .CHANGE ]

def EndExternalControl : List Effect :=
  switchAudio false ++
  [ .ledcDetachPin tailPinOut,
    .ledcDetachPin headPinOut,
    .ledcDetachPin mouthPinOut ] ++
  AttachInterrupts

/-- One call of `handleMotorStates`: the new values of the two reference
parameters `motorState` and `state`.  `now` is the value `millis()` returns. -/
def handleMotorStates (motorState : MotorState) (state : Nat)
    (startupTime springTime actionStartTime now : Nat) : MotorState × Nat :=
  match motorState with
  | .IDLE => (motorState, state)
  | .UP_REQUESTED =>
      if usub now actionStartTime ≥ startupTime then (.UP, MOTOR_UP) else (motorState, state)
  | .UP => (motorState, state)
  | .DOWN_REQUESTED =>
      if usub now actionStartTime ≥ springTime then (.DOWN, MOTOR_DOWN) else (motorState, state)
  | .DOWN => (.IDLE, MOTOR_IDLE)
  | .UNKNOWN_STATE => (motorState, state)

/-- The three mechanisms, used to index the per-mechanism globals and constants. -/
inductive Mech where
  | head
  | tail
  | mouth
  deriving DecidableEq, Repr

/-- One pass of `loop`.  `millis m` is the value `millis()` returns inside the
call of `handleMotorStates` for mechanism `m`. -/
def loop (s : State) (millis : Mech → Nat) : State :=
  let h := handleMotorStates s.headMotorState s.headState
    HEAD_STARTUP_TIME HEAD_SPRING_TIME s.actionStartTimeHead (millis .head)
  let s := { s with headMotorState := h.1, headState := h.2 }
  let t := handleMotorStates s.tailMotorState s.tailState
    TAIL_STARTUP_TIME TAIL_SPRING_TIME s.actionStartTimeTail (millis .tail)
  let s := { s with tailMotorState := t.1, tailState := t.2 }
  let m := handleMotorStates s.mouthMotorState s.mouthState
    MOUTH_STARTUP_TIME MOUTH_SPRING_TIME s.actionStartTimeMouth (millis .mouth)
  { s with mouthMotorState := m.1, mouthState := m.2 }

/-- The core calls of `setup`, in program order. -/
def setup : List Effect :=
  [ .pinMode relay1Out .OUTPUT,
    .pinMode relay2Out .OUTPUT ] ++
  switchAudio false ++
  [ .ledcSetup tailPwmChannel pwmFrequency pwmResolution,
    .ledcSetup headPwmChannel pwmFrequency pwmResolution,
    .ledcSetup mouthPwmChannel pwmFrequency pwmResolution ] ++
  AttachInterrupts ++
  [ .wireBegin 0x08, .wireOnReceive, .wireOnRequest ]

/-- What one call of `initiateMotorChange` leaves behind. -/
structure MotorChange where
  /-- The reference parameter `motorState`. -/
  motorState : MotorState
  /-- The reference parameter `actionStart`. -/
  actionStart : Nat
  /-- The global `headState`. -/
  headState : Nat
  /-- The core calls made. -/
  effects : List Effect

/-- One call of `initiateMotorChange`.  `headState` is the global of that name,
which the function assigns whatever mechanism its reference parameters belong
to; `now` is the value `millis()` returns. -/
def initiateMotorChange (registerValue : Nat) (motorState : MotorState) (actionStart : Nat)
    (pwmChannel : Nat) (headState : Nat) (now : Nat) : MotorChange :=
  if registerValue = MOTOR_UP_REQUESTED ∧ motorState = .IDLE then
    { motorState := .UP_REQUESTED, actionStart := now, headState := MOTOR_UP_REQUESTED,
      effects := [.ledcWrite pwmChannel 255] }
  else if registerValue = MOTOR_DOWN_REQUESTED ∧ motorState = .UP then
    { motorState := .DOWN_REQUESTED, actionStart := now, headState := MOTOR_DOWN_REQUESTED,
      effects := [.ledcWrite pwmChannel 0] }
  else
    { motorState := motorState, actionStart := actionStart, headState := headState,
      effects := [] }

/-- One call of `receiveEvent`.  `registerAddress` and `registerValue` are the
two bytes `Wire.read()` returns, `now` the value `millis()` returns. -/
def receiveEvent (s : State) (numBytes : Int) (registerAddress registerValue now : Nat) :
    State × List Effect :=
  if numBytes < 2 then (s, [])
  else if registerAddress = CONTROL_REG then
    if registerValue = CONTROL_REQUESTED ∧ s.controlledExternally ≠ CONTROL_UNDER_CONTROL then
      ({ s with controlledExternally := CONTROL_UNDER_CONTROL }, AssumeControl)
    else if registerValue = CONTROL_LEAVE ∧ s.controlledExternally = CONTROL_UNDER_CONTROL then
      ({ s with controlledExternally := CONTROL_IDLE }, EndExternalControl)
    else (s, [])
  else if registerAddress = HEAD_REG then
    let r := initiateMotorChange registerValue s.headMotorState s.actionStartTimeHead
      headPwmChannel s.headState now
    ({ s with headMotorState := r.motorState, actionStartTimeHead := r.actionStart,
              headState := r.headState }, r.effects)
  else if registerAddress = TAIL_REG then
    let r := initiateMotorChange registerValue s.tailMotorState s.actionStartTimeTail
      tailPwmChannel s.headState now
    ({ s with tailMotorState := r.motorState, actionStartTimeTail := r.actionStart,
              headState := r.headState }, r.effects)
  else if registerAddress = MOUTH_REG then
    let r := initiateMotorChange registerValue s.mouthMotorState s.actionStartTimeMouth
      mouthPwmChannel s.headState now
    ({ s with mouthMotorState := r.motorState, actionStartTimeMouth := r.actionStart,
              headState := r.headState }, r.effects)
  else (s, [])

/-- One call of `requestEvent`: the core calls made.  `registerAddress` is the
byte `Wire.read()` returns.  The globals are only read. -/
def requestEvent (s : State) (registerAddress : Nat) : List Effect :=
  if registerAddress = CONTROL_STATUS then [.wireWrite s.controlledExternally]
  else if registerAddress = MOUTH_STATUS then [.wireWrite s.mouthState]
  else if registerAddress = TAIL_STATUS then [.wireWrite s.tailState]
  else if registerAddress = HEAD_STATUS then [.wireWrite s.headState]
  else []

/-! ## Per-mechanism views and whole-system steps -/

/-- Write address of a mechanism. -/
def Mech.reg : Mech → Nat
  | .head => HEAD_REG
  | .tail => TAIL_REG
  | .mouth => MOUTH_REG

/-- Status address of a mechanism. -/
def Mech.statusReg : Mech → Nat
  | .head => HEAD_STATUS
  | .tail => TAIL_STATUS
  | .mouth => MOUTH_STATUS

/-- LEDC channel of a mechanism. -/
def Mech.pwmChannel : Mech → Nat
  | .head => headPwmChannel
  | .tail => tailPwmChannel
  | .mouth => mouthPwmChannel

/-- Sensor input pin of a mechanism. -/
def Mech.pinIn : Mech → Nat
  | .head => interruptPinHeadIn
  | .tail => interruptPinTailIn
  | .mouth => interruptPinMouthIn

/-- Actuator output pin of a mechanism. -/
def Mech.pinOut : Mech → Nat
  | .head => headPinOut
  | .tail => tailPinOut
  | .mouth => mouthPinOut

/-- The routine that `AttachInterrupts` attaches to a mechanism's sensor input. -/
def Mech.isr : Mech → Isr
  | .head => .handleInterruptHead
  | .tail => .handleInterruptTail
  | .mouth => .handleInterruptMouth

/-- Startup delay that `loop` passes for a mechanism. -/
def Mech.startupTime : Mech → Nat
  | .head => HEAD_STARTUP_TIME
  | .tail => TAIL_STARTUP_TIME
  | .mouth => MOUTH_STARTUP_TIME

/-- Spring delay that `loop` passes for a mechanism. -/
def Mech.springTime : Mech → Nat
  | .head => HEAD_SPRING_TIME
  | .tail => TAIL_SPRING_TIME
  | .mouth => MOUTH_SPRING_TIME

/-- The `MotorState` global of a mechanism. -/
def State.motorState (s : State) : Mech → MotorState
  | .head => s.headMotorState
  | .tail => s.tailMotorState
  | .mouth => s.mouthMotorState

/-- The status byte global of a mechanism. -/
def State.status (s : State) : Mech → Nat
  | .head => s.headState
  | .tail => s.tailState
  | .mouth => s.mouthState

/-- The timestamp global of a mechanism. -/
def State.actionStart (s : State) : Mech → Nat
  | .head => s.actionStartTimeHead
  | .tail => s.actionStartTimeTail
  | .mouth => s.actionStartTimeMouth

/-- The register-map encoding of a state of the state machine (`MOTOR_*`). -/
def statusCode : MotorState → Option Nat
  | .IDLE => some MOTOR_IDLE
  | .UP_REQUESTED => some MOTOR_UP_REQUESTED
  | .UP => some MOTOR_UP
  | .DOWN_REQUESTED => some MOTOR_DOWN_REQUESTED
  | .DOWN => some MOTOR_DOWN
  | .UNKNOWN_STATE => none

/-- One activation of the firmware after `setup`: a bus write, a bus read, or
a pass of `loop`. -/
inductive Step where
  | write (numBytes : Int) (registerAddress registerValue now : Nat)
  | read (registerAddress : Nat)
  | poll (millis : Mech → Nat)

/-- The globals and the core calls after one step. -/
def step (s : State) : Step → State × List Effect
  | .write n a v now => receiveEvent s n a v now
  | .read a => (s, requestEvent s a)
  | .poll c => (loop s c, [])

/-- The globals after a sequence of steps, and all core calls made, in order. -/
def run (s : State) : List Step → State × List Effect
  | [] => (s, [])
  | x :: xs =>
      let r := step s x
      let q := run r.1 xs
      (q.1, r.2 ++ q.2)

/-- The globals after repeated passes of `loop`. -/
def loops (s : State) : List (Mech → Nat) → State
  | [] => s
  | c :: cs => loops (loop s c) cs

/-! ## Ownership of the actuator outputs -/

/-- Both owners present on a mechanism's pin pair: some routine attached to the
interrupt of its sensor input and some LEDC channel attached to its output. -/
def conflict (h : Hw) (m : Mech) : Bool :=
  (h.isr (digitalPinToInterrupt m.pinIn)).isSome && (h.pwmPin m.pinOut).isSome

/-- No mechanism has both owners. -/
def exclusive (h : Hw) : Prop := ∀ m : Mech, conflict h m = false

/-- No mechanism has both owners, before and after every call of a sequence. -/
def exclusiveAlong (h : Hw) : List Effect → Prop
  | [] => exclusive h
  | e :: es => exclusive h ∧ exclusiveAlong (applyEffect h e) es

/-- No routine is attached to the interrupt of any sensor input. -/
def noIsr (h : Hw) : Prop := ∀ m : Mech, h.isr (digitalPinToInterrupt m.pinIn) = none

/-- No LEDC channel is attached to any actuator output. -/
def noPwm (h : Hw) : Prop := ∀ m : Mech, h.pwmPin m.pinOut = none

/-- The mode byte agrees with the pin configuration as far as exclusion needs:
under external control no routine is attached, otherwise no channel is. -/
def ownersAgree (s : State) (h : Hw) : Prop :=
  (s.controlledExternally = CONTROL_UNDER_CONTROL → noIsr h) ∧
  (s.controlledExternally ≠ CONTROL_UNDER_CONTROL → noPwm h)

/-- Every routine is attached, on `CHANGE`, to the interrupt of its own sensor
input. -/
def allIsr (h : Hw) : Prop :=
  ∀ m : Mech, h.isr (digitalPinToInterrupt m.pinIn) = some (m.isr, .CHANGE)

/-- Every actuator output is attached to its own LEDC channel. -/
def allPwm (h : Hw) : Prop := ∀ m : Mech, h.pwmPin m.pinOut = some m.pwmChannel

/-- The mode byte and the pin configuration agree: either Local with the three
routines attached and no channel attached, or external control with no routine
attached and the three channels attached. -/
def modeOwns (s : State) (h : Hw) : Prop :=
  (s.controlledExternally = CONTROL_IDLE ∧ allIsr h ∧ noPwm h) ∨
  (s.controlledExternally = CONTROL_UNDER_CONTROL ∧ noIsr h ∧ allPwm h)

/-- Two states agree on every mechanism's state, timestamp and status byte;
they may differ in the mode byte only. -/
def sameMechs (s t : State) : Prop :=
  ∀ m : Mech, s.motorState m = t.motorState m ∧ s.actionStart m = t.actionStart m ∧
    s.status m = t.status m

/-- The values of a status byte in the register map. -/
def statusInMap (b : Nat) : Prop :=
  b = MOTOR_IDLE ∨ b = MOTOR_UP_REQUESTED ∨ b = MOTOR_UP ∨ b = MOTOR_DOWN_REQUESTED ∨
    b = MOTOR_DOWN

/-- The values of `MotorState` that `handleMotorStates` has a case for. -/
def recognised (ms : MotorState) : Prop :=
  ms = .IDLE ∨ ms = .UP_REQUESTED ∨ ms = .UP ∨ ms = .DOWN_REQUESTED ∨ ms = .DOWN

/-- Every global holds a value of its register map or enumeration: the mode
byte is `CONTROL_IDLE` or `CONTROL_UNDER_CONTROL`, every status byte is one of
the `MOTOR_*` values, and every `MotorState` is one that `handleMotorStates`
has a case for. -/
def inRange (s : State) : Prop :=
  (s.controlledExternally = CONTROL_IDLE ∨ s.controlledExternally = CONTROL_UNDER_CONTROL) ∧
  ∀ m : Mech, statusInMap (s.status m) ∧ recognised (s.motorState m)

/-! ## Sample states -/

/-- The boot state with the head in `UP_REQUESTED` since time 1000. -/
def headRaising : State :=
  { boot with headMotorState := .UP_REQUESTED, headState := 0x01, actionStartTimeHead := 1000 }

/-- The boot state with the head in `UP`. -/
def headUp : State := { boot with headMotorState := .UP, headState := 0x02 }

/-- The boot state with the tail in `UP`. -/
def tailUp : State := { boot with tailMotorState := .UP, tailState := 0x02 }

/-- The boot state with the tail in `DOWN`. -/
def tailDown : State := { boot with tailMotorState := .DOWN, tailState := 0x04 }

/-- The boot state with the tail in `DOWN_REQUESTED` since time 2000. -/
def tailLowering : State :=
  { boot with tailMotorState := .DOWN_REQUESTED, tailState := 0x03, actionStartTimeTail := 2000 }

/-- The boot state with the mode byte `CONTROL_UNDER_CONTROL`. -/
def underControl : State := { boot with controlledExternally := CONTROL_UNDER_CONTROL }

/-- The boot state with the head in `UP_REQUESTED` since counter value
4294967000, which is 296 ms before the counter wraps. -/
def headRaisingLate : State :=
  { boot with headMotorState := .UP_REQUESTED, headState := 0x01,
              actionStartTimeHead := 4294967000 }

/-- The boot state with the mouth in `UP`. -/
def mouthUp : State := { boot with mouthMotorState := .UP, mouthState := 0x02 }

/-! ## Auxiliary facts -/

theorem usub_of_le (a b : Nat) (hba : b ≤ a) (ha : a < ULONG_MOD) : usub a b = a - b := by
  simp only [usub, ULONG_MOD] at *
  omega

theorem usub_lt (a b : Nat) : usub a b < ULONG_MOD := by
  simp only [usub, ULONG_MOD]
  omega

/-- A pass of `loop` acts on each mechanism as `handleMotorStates` does on that
mechanism's own globals and constants. -/
theorem loop_motorState (s : State) (c : Mech → Nat) (m : Mech) :
    (loop s c).motorState m =
      (handleMotorStates (s.motorState m) (s.status m) m.startupTime m.springTime
        (s.actionStart m) (c m)).1 := by
  cases m <;> rfl

theorem loop_status (s : State) (c : Mech → Nat) (m : Mech) :
    (loop s c).status m =
      (handleMotorStates (s.motorState m) (s.status m) m.startupTime m.springTime
        (s.actionStart m) (c m)).2 := by
  cases m <;> rfl

theorem loop_actionStart (s : State) (c : Mech → Nat) (m : Mech) :
    (loop s c).actionStart m = s.actionStart m := by
  cases m <;> rfl

theorem requestEvent_statusReg (s : State) (m : Mech) :
    requestEvent s m.statusReg = [Effect.wireWrite (s.status m)] := by
  cases m <;> rfl

theorem Mech.startupTime_pos (m : Mech) : 0 < m.startupTime := by
  cases m <;> decide

theorem Mech.springTime_pos (m : Mech) : 0 < m.springTime := by
  cases m <;> decide

/-- A write to a mechanism's address hands that mechanism's globals, its
channel and the global `headState` to `initiateMotorChange`. -/
theorem receiveEvent_reg (s : State) (m : Mech) (n : Int) (v now : Nat) (hn : 2 ≤ n) :
    (receiveEvent s n m.reg v now).1.motorState m =
        (initiateMotorChange v (s.motorState m) (s.actionStart m) m.pwmChannel
          s.headState now).motorState ∧
    (receiveEvent s n m.reg v now).1.actionStart m =
        (initiateMotorChange v (s.motorState m) (s.actionStart m) m.pwmChannel
          s.headState now).actionStart ∧
    (receiveEvent s n m.reg v now).1.headState =
        (initiateMotorChange v (s.motorState m) (s.actionStart m) m.pwmChannel
          s.headState now).headState ∧
    (receiveEvent s n m.reg v now).2 =
        (initiateMotorChange v (s.motorState m) (s.actionStart m) m.pwmChannel
          s.headState now).effects := by
  have h : ¬ n < 2 := not_lt.mpr hn
  cases m <;>
    simp [receiveEvent, h, Mech.reg, State.motorState, State.actionStart, Mech.pwmChannel]

/-- While the spring delay has not elapsed, passes of `loop` leave a mechanism
in `DOWN_REQUESTED` with its timestamp and status byte as they were. -/
theorem loops_keep_down_requested (m : Mech) (t0 : Nat) (early : List (Mech → Nat)) :
    ∀ s : State, s.motorState m = .DOWN_REQUESTED → s.actionStart m = t0 →
      (∀ e ∈ early, usub (e m) t0 < m.springTime) →
      (loops s early).motorState m = .DOWN_REQUESTED ∧ (loops s early).actionStart m = t0 ∧
        (loops s early).status m = s.status m := by
  induction early with
  | nil => intro s h1 h2 _; exact ⟨h1, h2, rfl⟩
  | cons e es ih =>
    intro s h1 h2 he
    have hlt : usub (e m) t0 < m.springTime := he e (List.mem_cons_self _ _)
    have hm : (loop s e).motorState m = .DOWN_REQUESTED := by
      rw [loop_motorState, h1, h2]
      simp [handleMotorStates, not_le.mpr hlt]
    have hs : (loop s e).status m = s.status m := by
      rw [loop_status, h1, h2]
      simp [handleMotorStates, not_le.mpr hlt]
    have ha : (loop s e).actionStart m = t0 := by rw [loop_actionStart, h2]
    have := ih (loop s e) hm ha (fun x hx => he x (List.mem_cons_of_mem _ hx))
    simpa [loops, hs] using this

/-- A command that meets neither guard of `initiateMotorChange` is ignored. -/
theorem initiateMotorChange_ignored (v : Nat) (ms : MotorState) (st ch hs now : Nat)
    (h1 : ¬ (v = MOTOR_UP_REQUESTED ∧ ms = .IDLE))
    (h2 : ¬ (v = MOTOR_DOWN_REQUESTED ∧ ms = .UP)) :
    initiateMotorChange v ms st ch hs now =
      { motorState := ms, actionStart := st, headState := hs, effects := [] } := by
  unfold initiateMotorChange
  rw [if_neg h1, if_neg h2]

/-- After a bus write, a mechanism's state is either what it was or what
`initiateMotorChange` makes of it. -/
theorem receiveEvent_motorState_cases (s : State) (n : Int) (a v now : Nat) (m : Mech) :
    (receiveEvent s n a v now).1.motorState m = s.motorState m ∨
    (receiveEvent s n a v now).1.motorState m =
      (initiateMotorChange v (s.motorState m) (s.actionStart m) m.pwmChannel
        s.headState now).motorState := by
  unfold receiveEvent
  split_ifs <;> cases m <;> simp [State.motorState, State.actionStart, Mech.pwmChannel]

theorem initiateMotorChange_down_requested (v : Nat) (ms : MotorState) (st ch hs now : Nat)
    (h : (initiateMotorChange v ms st ch hs now).motorState = .DOWN_REQUESTED)
    (hne : ms ≠ .DOWN_REQUESTED) : ms = .UP := by
  unfold initiateMotorChange at h
  split_ifs at h with h1 h2
  · exact h2.2
  · exact absurd h hne

theorem handleMotorStates_down_requested (ms : MotorState) (st a b ts now : Nat)
    (h : (handleMotorStates ms st a b ts now).1 = .DOWN_REQUESTED) : ms = .DOWN_REQUESTED := by
  cases ms <;> simp [handleMotorStates] at h ⊢
  all_goals split_ifs at h

theorem runEffects_append (h : Hw) (a b : List Effect) :
    runEffects h (a ++ b) = runEffects (runEffects h a) b := by
  simp [runEffects, List.foldl_append]

theorem exclusiveAlong_head (h : Hw) (tr : List Effect) (hx : exclusiveAlong h tr) :
    exclusive h := by
  cases tr with
  | nil => exact hx
  | cons e es => exact hx.1

theorem exclusiveAlong_append (a b : List Effect) :
    ∀ h : Hw, exclusiveAlong h a → exclusiveAlong (runEffects h a) b →
      exclusiveAlong h (a ++ b) := by
  induction a with
  | nil => intro h _ hb; exact hb
  | cons e es ih =>
    intro h ha hb
    exact ⟨ha.1, ih (applyEffect h e) ha.2 hb⟩

theorem exclusiveAlong_take (tr : List Effect) :
    ∀ (h : Hw) (k : Nat), exclusiveAlong h tr → exclusive (runEffects h (tr.take k)) := by
  induction tr with
  | nil => intro h k hx; simpa [runEffects] using hx
  | cons e es ih =>
    intro h k hx
    cases k with
    | zero => simpa [runEffects] using hx.1
    | succ j => simpa [runEffects] using ih (applyEffect h e) j hx.2

theorem exclusive_of_noIsr (h : Hw) (hn : noIsr h) : exclusive h := by
  intro m
  simp [conflict, hn m]

theorem exclusive_of_noPwm (h : Hw) (hn : noPwm h) : exclusive h := by
  intro m
  simp [conflict, hn m]

theorem exclusive_iff (h : Hw) :
    exclusive h ↔ conflict h .head = false ∧ conflict h .tail = false ∧
      conflict h .mouth = false := by
  constructor
  · intro hx; exact ⟨hx .head, hx .tail, hx .mouth⟩
  · rintro ⟨a, b, c⟩ m; cases m <;> assumption

theorem noIsr_iff (h : Hw) :
    noIsr h ↔ h.isr 32 = none ∧ h.isr 34 = none ∧ h.isr 35 = none := by
  constructor
  · intro hx; exact ⟨hx .head, hx .tail, hx .mouth⟩
  · rintro ⟨a, b, c⟩ m; cases m <;> assumption

theorem noPwm_iff (h : Hw) :
    noPwm h ↔ h.pwmPin 26 = none ∧ h.pwmPin 13 = none ∧ h.pwmPin 25 = none := by
  constructor
  · intro hx; exact ⟨hx .head, hx .tail, hx .mouth⟩
  · rintro ⟨a, b, c⟩ m; cases m <;> assumption

/-- Started with no channel attached, `AssumeControl` never has both owners on
a pin pair and ends with no routine attached. -/
theorem AssumeControl_exclusive (h : Hw) (hn : noPwm h) :
    exclusiveAlong h AssumeControl ∧ noIsr (runEffects h AssumeControl) := by
  obtain ⟨h1, h2, h3⟩ := (noPwm_iff h).mp hn
  constructor
  · simp [exclusiveAlong, AssumeControl, DetachInterrupts, switchAudio, applyEffect,
      exclusive_iff, conflict, digitalPinToInterrupt, Mech.pinIn, Mech.pinOut, h1, h2, h3]
  · simp [noIsr_iff, runEffects, AssumeControl, DetachInterrupts, switchAudio, applyEffect,
      digitalPinToInterrupt]

/-- Started with no routine attached, `EndExternalControl` never has both owners
on a pin pair and ends with no channel attached. -/
theorem EndExternalControl_exclusive (h : Hw) (hn : noIsr h) :
    exclusiveAlong h EndExternalControl ∧ noPwm (runEffects h EndExternalControl) := by
  obtain ⟨h1, h2, h3⟩ := (noIsr_iff h).mp hn
  constructor
  · simp [exclusiveAlong, EndExternalControl, AttachInterrupts, switchAudio, applyEffect,
      exclusive_iff, conflict, digitalPinToInterrupt, Mech.pinIn, Mech.pinOut, h1, h2, h3]
  · simp [noPwm_iff, runEffects, EndExternalControl, AttachInterrupts, switchAudio, applyEffect,
      digitalPinToInterrupt]

/-- The calls of `setup` never have both owners on a pin pair and end with no
channel attached. -/
theorem setup_exclusive :
    exclusiveAlong Hw.powerOn setup ∧ noPwm (runEffects Hw.powerOn setup) := by
  constructor
  · simp [exclusiveAlong, setup, AttachInterrupts, switchAudio, applyEffect,
      exclusive_iff, conflict, digitalPinToInterrupt, Mech.pinIn, Mech.pinOut, Hw.powerOn]
  · simp [noPwm_iff, runEffects, setup, AttachInterrupts, switchAudio, applyEffect,
      Hw.powerOn]

theorem exclusive_of_ownersAgree (s : State) (h : Hw) (hinv : ownersAgree s h) :
    exclusive h := by
  by_cases hm : s.controlledExternally = CONTROL_UNDER_CONTROL
  · exact exclusive_of_noIsr h (hinv.1 hm)
  · exact exclusive_of_noPwm h (hinv.2 hm)

/-- A step that keeps the mode byte and makes at most one call, a duty write or
a bus write, keeps the owners as they are. -/
theorem ownersAgree_quiet (s t : State) (h : Hw) (tr : List Effect)
    (hmode : t.controlledExternally = s.controlledExternally)
    (htr : tr = [] ∨ (∃ c d, tr = [Effect.ledcWrite c d]) ∨ ∃ b, tr = [Effect.wireWrite b])
    (hinv : ownersAgree s h) :
    exclusiveAlong h tr ∧ ownersAgree t (runEffects h tr) := by
  have hx := exclusive_of_ownersAgree s h hinv
  have hinv2 : ownersAgree t h := by
    unfold ownersAgree at hinv ⊢
    rw [hmode]
    exact hinv
  rcases htr with rfl | ⟨c, d, rfl⟩ | ⟨b, rfl⟩
  · exact ⟨hx, hinv2⟩
  · refine ⟨⟨hx, ?_⟩, ?_⟩
    · intro m; exact hx m
    · exact hinv2
  · refine ⟨⟨hx, ?_⟩, ?_⟩
    · intro m; exact hx m
    · exact hinv2

theorem initiateMotorChange_effects (v : Nat) (ms : MotorState) (st ch hs now : Nat) :
    (initiateMotorChange v ms st ch hs now).effects = [] ∨
    ∃ c d, (initiateMotorChange v ms st ch hs now).effects = [Effect.ledcWrite c d] := by
  unfold initiateMotorChange
  split_ifs
  · exact Or.inr ⟨ch, 255, rfl⟩
  · exact Or.inr ⟨ch, 0, rfl⟩
  · exact Or.inl rfl

theorem requestEvent_effects (s : State) (a : Nat) :
    requestEvent s a = [] ∨ ∃ b, requestEvent s a = [Effect.wireWrite b] := by
  unfold requestEvent
  split_ifs
  · exact Or.inr ⟨_, rfl⟩
  · exact Or.inr ⟨_, rfl⟩
  · exact Or.inr ⟨_, rfl⟩
  · exact Or.inr ⟨_, rfl⟩
  · exact Or.inl rfl

theorem loop_controlledExternally (s : State) (c : Mech → Nat) :
    (loop s c).controlledExternally = s.controlledExternally := rfl

/-- Every step keeps the two owners apart at each of its calls and leaves the
mode byte in agreement with the pin configuration. -/
theorem step_exclusive (s : State) (h : Hw) (x : Step) (hinv : ownersAgree s h) :
    exclusiveAlong h (step s x).2 ∧ ownersAgree (step s x).1 (runEffects h (step s x).2) := by
  cases x with
  | read a =>
    refine ownersAgree_quiet s _ h _ rfl ?_ hinv
    rcases requestEvent_effects s a with e | e
    · exact Or.inl e
    · exact Or.inr (Or.inr e)
  | poll c => exact ownersAgree_quiet s _ h _ (loop_controlledExternally s c) (Or.inl rfl) hinv
  | write n a v now =>
    simp only [step]
    unfold receiveEvent
    split_ifs with h1 h2 h3 h4 h5 h6 h7
    · exact ownersAgree_quiet s s h [] rfl (Or.inl rfl) hinv
    · obtain ⟨k1, k2⟩ := AssumeControl_exclusive h (hinv.2 h3.2)
      exact ⟨k1, fun _ => k2, fun hne => absurd rfl hne⟩
    · obtain ⟨k1, k2⟩ := EndExternalControl_exclusive h (hinv.1 h4.2)
      have hne : CONTROL_IDLE ≠ CONTROL_UNDER_CONTROL := by decide
      exact ⟨k1, fun hc => absurd hc hne, fun _ => k2⟩
    · exact ownersAgree_quiet s s h [] rfl (Or.inl rfl) hinv
    · refine ownersAgree_quiet s _ h _ rfl ?_ hinv
      rcases initiateMotorChange_effects v s.headMotorState s.actionStartTimeHead
        headPwmChannel s.headState now with e | e
      · exact Or.inl e
      · exact Or.inr (Or.inl e)
    · refine ownersAgree_quiet s _ h _ rfl ?_ hinv
      rcases initiateMotorChange_effects v s.tailMotorState s.actionStartTimeTail
        tailPwmChannel s.headState now with e | e
      · exact Or.inl e
      · exact Or.inr (Or.inl e)
    · refine ownersAgree_quiet s _ h _ rfl ?_ hinv
      rcases initiateMotorChange_effects v s.mouthMotorState s.actionStartTimeMouth
        mouthPwmChannel s.headState now with e | e
      · exact Or.inl e
      · exact Or.inr (Or.inl e)
    · exact ownersAgree_quiet s s h [] rfl (Or.inl rfl) hinv

/-- Every sequence of steps keeps the two owners apart at each of its calls and
leaves the mode byte in agreement with the pin configuration. -/
theorem run_exclusive (xs : List Step) :
    ∀ (s : State) (h : Hw), ownersAgree s h →
      exclusiveAlong h (run s xs).2 ∧ ownersAgree (run s xs).1 (runEffects h (run s xs).2) := by
  induction xs with
  | nil => intro s h hinv; exact ⟨exclusive_of_ownersAgree s h hinv, hinv⟩
  | cons x xs ih =>
    intro s h hinv
    obtain ⟨a1, a2⟩ := step_exclusive s h x hinv
    obtain ⟨b1, b2⟩ := ih (step s x).1 (runEffects h (step s x).2) a2
    refine ⟨exclusiveAlong_append _ _ h a1 b1, ?_⟩
    simp only [run]
    rw [runEffects_append]
    exact b2

/-! ## The claims -/

/-- C1: for every mechanism in `IDLE`, a two-byte write of `0x01` to its address
at time `t0` makes its state `UP_REQUESTED`, its timestamp `t0`, and writes duty
255 to its channel; a following pass of `loop` at a time `t` with
`t - t0 ≥` its startup delay makes its state `UP`, and a read of its status
address then answers `0x02`. -/
theorem raise_request_reaches_up (s : State) (m : Mech) (numBytes : Int) (t0 : Nat)
    (hn : 2 ≤ numBytes) (hidle : s.motorState m = .IDLE) :
    (receiveEvent s numBytes m.reg 0x01 t0).1.motorState m = .UP_REQUESTED ∧
    (receiveEvent s numBytes m.reg 0x01 t0).1.actionStart m = t0 ∧
    (receiveEvent s numBytes m.reg 0x01 t0).2 = [Effect.ledcWrite m.pwmChannel 255] ∧
    ∀ (c : Mech → Nat) (t : Nat), c m = t → t < ULONG_MOD → t - t0 ≥ m.startupTime →
      (loop (receiveEvent s numBytes m.reg 0x01 t0).1 c).motorState m = .UP ∧
      requestEvent (loop (receiveEvent s numBytes m.reg 0x01 t0).1 c) m.statusReg
        = [Effect.wireWrite 0x02] := by
  obtain ⟨h1, h2, -, h4⟩ := receiveEvent_reg s m numBytes 0x01 t0 hn
  simp only [initiateMotorChange, hidle, and_self, if_true] at h1 h2 h4
  refine ⟨h1, h2, h4, ?_⟩
  intro c t hc ht hd
  have hpos := m.startupTime_pos
  have hel : usub (c m) t0 ≥ m.startupTime := by
    rw [hc, usub_of_le t t0 (by omega) ht]
    exact hd
  have hm : (loop (receiveEvent s numBytes m.reg 0x01 t0).1 c).motorState m = .UP := by
    rw [loop_motorState, h1, h2]
    simp [handleMotorStates, hel]
  have hs : (loop (receiveEvent s numBytes m.reg 0x01 t0).1 c).status m = 0x02 := by
    rw [loop_status, h1, h2]
    simp [handleMotorStates, hel]
  exact ⟨hm, by rw [requestEvent_statusReg, hs]⟩

/-- Witness for C1: the tail, raised from the boot state at time 1000 and
polled at time 1250. -/
theorem raise_request_reaches_up_witness :
    boot.motorState .tail = .IDLE ∧
    (receiveEvent boot 2 TAIL_REG 0x01 1000).1.tailMotorState = .UP_REQUESTED ∧
    (loop (receiveEvent boot 2 TAIL_REG 0x01 1000).1 (fun _ => 1250)).tailMotorState = .UP ∧
    requestEvent (loop (receiveEvent boot 2 TAIL_REG 0x01 1000).1 (fun _ => 1250)) TAIL_STATUS
      = [Effect.wireWrite 0x02] :=
  ⟨rfl,
   (raise_request_reaches_up boot .tail 2 1000 (by decide) rfl).1,
   ((raise_request_reaches_up boot .tail 2 1000 (by decide) rfl).2.2.2
      (fun _ => 1250) 1250 rfl (by decide) (by decide)).1,
   ((raise_request_reaches_up boot .tail 2 1000 (by decide) rfl).2.2.2
      (fun _ => 1250) 1250 rfl (by decide) (by decide)).2⟩

/-- C2: for every mechanism in `UP`, a two-byte write of `0x03` to its address
at time `t0` makes its state `DOWN_REQUESTED`, its timestamp `t0`, and writes
duty 0 to its channel; after any passes of `loop` made before the spring delay
has elapsed, the first pass at a time `t` with `t - t0 ≥` its spring delay makes
the state `DOWN` with status byte `0x04`, and one further pass, at any time,
makes it `IDLE` with status byte `0x00`. -/
theorem lower_request_reaches_idle (s : State) (m : Mech) (numBytes : Int) (t0 : Nat)
    (hn : 2 ≤ numBytes) (hup : s.motorState m = .UP) :
    (receiveEvent s numBytes m.reg 0x03 t0).1.motorState m = .DOWN_REQUESTED ∧
    (receiveEvent s numBytes m.reg 0x03 t0).1.actionStart m = t0 ∧
    (receiveEvent s numBytes m.reg 0x03 t0).2 = [Effect.ledcWrite m.pwmChannel 0] ∧
    ∀ (early : List (Mech → Nat)) (c c2 : Mech → Nat) (t : Nat),
      c m = t → t < ULONG_MOD → t - t0 ≥ m.springTime →
      (∀ e ∈ early, t0 ≤ e m ∧ e m - t0 < m.springTime) →
      (loops (receiveEvent s numBytes m.reg 0x03 t0).1 early).motorState m = .DOWN_REQUESTED ∧
      (loop (loops (receiveEvent s numBytes m.reg 0x03 t0).1 early) c).motorState m = .DOWN ∧
      requestEvent (loop (loops (receiveEvent s numBytes m.reg 0x03 t0).1 early) c) m.statusReg
        = [Effect.wireWrite 0x04] ∧
      (loop (loop (loops (receiveEvent s numBytes m.reg 0x03 t0).1 early) c) c2).motorState m
        = .IDLE ∧
      requestEvent (loop (loop (loops (receiveEvent s numBytes m.reg 0x03 t0).1 early) c) c2)
        m.statusReg = [Effect.wireWrite 0x00] := by
  obtain ⟨h1, h2, -, h4⟩ := receiveEvent_reg s m numBytes 0x03 t0 hn
  simp only [initiateMotorChange, hup, and_self, if_true] at h1 h2 h4
  simp at h1 h2 h4
  refine ⟨h1, h2, h4, ?_⟩
  intro early c c2 t hc ht hd hearly
  have hpos := m.springTime_pos
  have hpre : ∀ e ∈ early, usub (e m) t0 < m.springTime := by
    intro e he
    obtain ⟨hle, hlt⟩ := hearly e he
    rw [usub_of_le (e m) t0 hle (by omega)]
    exact hlt
  obtain ⟨k1, k2, -⟩ := loops_keep_down_requested m t0 early _ h1 h2 hpre
  have hel : usub (c m) t0 ≥ m.springTime := by
    rw [hc, usub_of_le t t0 (by omega) ht]
    exact hd
  have d1 : (loop (loops (receiveEvent s numBytes m.reg 0x03 t0).1 early) c).motorState m
      = .DOWN := by
    rw [loop_motorState, k1, k2]
    simp [handleMotorStates, hel]
  have d2 : (loop (loops (receiveEvent s numBytes m.reg 0x03 t0).1 early) c).status m
      = 0x04 := by
    rw [loop_status, k1, k2]
    simp [handleMotorStates, hel]
  refine ⟨k1, d1, by rw [requestEvent_statusReg, d2], ?_, ?_⟩
  · rw [loop_motorState, d1]
    rfl
  · rw [requestEvent_statusReg, loop_status, d1]
    rfl

/-- Witness for C2: the mouth in `UP`, lowered at time 5000, polled early at
5100, then at 5200 and once more at 5201. -/
theorem lower_request_reaches_idle_witness :
    (loop ((receiveEvent mouthUp
        2 MOUTH_REG 0x03 5000).1) (fun _ => 5100)).mouthMotorState = .DOWN_REQUESTED ∧
    (loop (loop ((receiveEvent mouthUp
        2 MOUTH_REG 0x03 5000).1) (fun _ => 5100)) (fun _ => 5200)).mouthMotorState = .DOWN ∧
    (loop (loop (loop ((receiveEvent mouthUp
        2 MOUTH_REG 0x03 5000).1) (fun _ => 5100)) (fun _ => 5200)) (fun _ => 5201)).mouthState
      = 0x00 :=
  ⟨((lower_request_reaches_idle mouthUp
      .mouth 2 5000 (by decide) rfl).2.2.2 [fun _ => 5100] (fun _ => 5200) (fun _ => 5201) 5200
      rfl (by decide) (by decide) (by intro e he; simp at he; subst he; decide)).1,
   ((lower_request_reaches_idle mouthUp
      .mouth 2 5000 (by decide) rfl).2.2.2 [fun _ => 5100] (fun _ => 5200) (fun _ => 5201) 5200
      rfl (by decide) (by decide) (by intro e he; simp at he; subst he; decide)).2.1,
   by decide⟩

/-- C3, at the failing input: from the boot state, a write of `0x01` to the tail
address leaves the tail in `UP_REQUESTED` with the tail status byte still
`0x00`, and the head in `IDLE` with the head status byte `0x01`; neither status
byte is the encoding of its own mechanism's state. -/
theorem status_not_encoding_after_tail_raise :
    (receiveEvent boot 2 TAIL_REG 0x01 0).1.tailMotorState = .UP_REQUESTED ∧
    (receiveEvent boot 2 TAIL_REG 0x01 0).1.tailState = 0x00 ∧
    (receiveEvent boot 2 TAIL_REG 0x01 0).1.headMotorState = .IDLE ∧
    (receiveEvent boot 2 TAIL_REG 0x01 0).1.headState = 0x01 ∧
    (run boot [Step.write 2 TAIL_REG 0x01 0]).1 = (receiveEvent boot 2 TAIL_REG 0x01 0).1 ∧
    ¬ (∀ m : Mech, statusCode ((run boot [Step.write 2 TAIL_REG 0x01 0]).1.motorState m)
        = some ((run boot [Step.write 2 TAIL_REG 0x01 0]).1.status m)) := by
  refine ⟨by decide, by decide, by decide, by decide, rfl, ?_⟩
  intro h
  exact absurd (h .tail) (by decide)

/-- C4: a write to a mechanism's address whose precondition is not met (`0x01`
while the state is not `IDLE`, `0x03` while the state is not `UP`, or any other
value) leaves all globals, hence every mechanism's state, timestamp and status
byte, unchanged and makes no core call, hence writes no duty. -/
theorem unmet_precondition_changes_nothing (s : State) (m : Mech) (numBytes : Int)
    (v now : Nat)
    (hpre : ¬ (v = 0x01 ∧ s.motorState m = .IDLE) ∧ ¬ (v = 0x03 ∧ s.motorState m = .UP)) :
    receiveEvent s numBytes m.reg v now = (s, []) := by
  obtain ⟨h1, h2⟩ := hpre
  unfold receiveEvent
  split
  · rfl
  · cases m <;> simp only [State.motorState] at h1 h2 <;>
      simp [Mech.reg, initiateMotorChange_ignored _ _ _ _ _ _ h1 h2]

/-- Witness for C4: a lower-request to the idle head, and an unknown value. -/
theorem unmet_precondition_changes_nothing_witness :
    receiveEvent boot 2 HEAD_REG 0x03 77 = (boot, []) ∧
    receiveEvent boot 2 HEAD_REG 0x07 77 = (boot, []) :=
  ⟨unmet_precondition_changes_nothing boot .head 2 0x03 77 (by decide),
   unmet_precondition_changes_nothing boot .head 2 0x07 77 (by decide)⟩

/-- C5, at the failing input: from the boot state, an accepted raise written to
the tail address changes the head status byte from `0x00` to `0x01`; and with
the tail in `UP`, an accepted lower written to the tail address changes the head
status byte from `0x00` to `0x03`. -/
theorem tail_write_changes_head_status :
    boot.status .head = 0x00 ∧
    (receiveEvent boot 2 Mech.tail.reg 0x01 0).1.status .head = 0x01 ∧
    tailUp.status .head = 0x00 ∧
    (receiveEvent tailUp 2
      Mech.tail.reg 0x03 0).1.status .head = 0x03 := by
  decide

/-- C6: for every mechanism, one pass of `loop` reading the time `c m` takes the
mechanism from `UP_REQUESTED` to `UP` exactly when the elapsed time
`c m - timestamp` is at least its startup delay, and from `DOWN_REQUESTED` to
`DOWN` exactly when it is at least its spring delay; otherwise the requested
state and the status byte stay as they were.  The elapsed time is the
`unsigned long` difference, which is the plain difference whenever
`timestamp ≤ t < 2^32`.  The timestamp and the delays are the mechanism's own:
head 600/1500, tail 250/125, mouth 250/200. -/
theorem poll_promotes_iff_delay_elapsed (s : State) (m : Mech) (c : Mech → Nat) :
    (s.motorState m = .UP_REQUESTED →
      ((loop s c).motorState m = .UP ↔ usub (c m) (s.actionStart m) ≥ m.startupTime) ∧
      (usub (c m) (s.actionStart m) ≥ m.startupTime → (loop s c).status m = 0x02) ∧
      (¬ usub (c m) (s.actionStart m) ≥ m.startupTime →
        (loop s c).motorState m = .UP_REQUESTED ∧ (loop s c).status m = s.status m)) ∧
    (s.motorState m = .DOWN_REQUESTED →
      ((loop s c).motorState m = .DOWN ↔ usub (c m) (s.actionStart m) ≥ m.springTime) ∧
      (usub (c m) (s.actionStart m) ≥ m.springTime → (loop s c).status m = 0x04) ∧
      (¬ usub (c m) (s.actionStart m) ≥ m.springTime →
        (loop s c).motorState m = .DOWN_REQUESTED ∧ (loop s c).status m = s.status m)) ∧
    (∀ t ts : Nat, ts ≤ t → t < 2 ^ 32 → usub t ts = t - ts) ∧
    (Mech.head.startupTime = 600 ∧ Mech.head.springTime = 1500) ∧
    (Mech.tail.startupTime = 250 ∧ Mech.tail.springTime = 125) ∧
    (Mech.mouth.startupTime = 250 ∧ Mech.mouth.springTime = 200) := by
  refine ⟨?_, ?_, fun t ts h1 h2 => usub_of_le t ts h1 h2, ⟨rfl, rfl⟩, ⟨rfl, rfl⟩, ⟨rfl, rfl⟩⟩
  · intro h
    rw [loop_motorState, loop_status, h]
    by_cases hel : usub (c m) (s.actionStart m) ≥ m.startupTime <;>
      simp [handleMotorStates, hel]
  · intro h
    rw [loop_motorState, loop_status, h]
    by_cases hel : usub (c m) (s.actionStart m) ≥ m.springTime <;>
      simp [handleMotorStates, hel]

/-- Witness for C6: the head, raise-requested at time 1000, is not promoted by
a pass at 1599 and is promoted by a pass at 1600; the tail, lower-requested at
time 2000, is not promoted by a pass at 2124 and is promoted by a pass at 2125. -/
theorem poll_promotes_iff_delay_elapsed_witness :
    headRaising.motorState .head = .UP_REQUESTED ∧
    (loop headRaising (fun _ => 1599)).motorState .head
      = .UP_REQUESTED ∧
    (loop headRaising (fun _ => 1600)).motorState .head = .UP ∧
    tailLowering.motorState .tail = .DOWN_REQUESTED ∧
    (loop tailLowering (fun _ => 2124)).motorState .tail = .DOWN_REQUESTED ∧
    (loop tailLowering (fun _ => 2125)).motorState .tail = .DOWN ∧
    (loop tailLowering (fun _ => 2125)).status .tail = 0x04 :=
  ⟨rfl,
   (((poll_promotes_iff_delay_elapsed headRaising .head (fun _ => 1599)).1 rfl).2.2
      (by decide)).1,
   ((poll_promotes_iff_delay_elapsed headRaising .head (fun _ => 1600)).1 rfl).1.mpr
      (by decide),
   rfl,
   (((poll_promotes_iff_delay_elapsed tailLowering .tail (fun _ => 2124)).2.1 rfl).2.2
      (by decide)).1,
   ((poll_promotes_iff_delay_elapsed tailLowering .tail (fun _ => 2125)).2.1 rfl).1.mpr
      (by decide),
   ((poll_promotes_iff_delay_elapsed tailLowering .tail (fun _ => 2125)).2.1 rfl).2.1
      (by decide)⟩

/-- C7: for every mechanism, timestamp and poll time, a mechanism in `DOWN` is
in `IDLE` with status byte `0x00` after one pass of `loop`; the `DOWN` case of
`handleMotorStates` yields `IDLE` and `0x00` directly, whatever its other
arguments. -/
theorem down_advances_to_idle (s : State) (m : Mech) (c : Mech → Nat)
    (hdown : s.motorState m = .DOWN) :
    (loop s c).motorState m = .IDLE ∧ (loop s c).status m = 0x00 ∧
    (loop s c).actionStart m = s.actionStart m ∧
    ∀ st a b ts now : Nat, handleMotorStates .DOWN st a b ts now = (.IDLE, 0x00) := by
  refine ⟨?_, ?_, loop_actionStart s c m, fun _ _ _ _ _ => rfl⟩
  · rw [loop_motorState, hdown]
    rfl
  · rw [loop_status, hdown]
    rfl

/-- Witness for C7: the tail in `DOWN`, polled at time 0. -/
theorem down_advances_to_idle_witness :
    (loop tailDown (fun _ => 0)).tailMotorState
      = .IDLE ∧
    (loop tailDown (fun _ => 0)).tailState
      = 0x00 :=
  ⟨(down_advances_to_idle tailDown
      .tail (fun _ => 0) rfl).1,
   (down_advances_to_idle tailDown
      .tail (fun _ => 0) rfl).2.1⟩

/-- C8: for every mechanism and every single step (bus write of any address and
value, bus read, pass of `loop` at any time), a mechanism that is in
`DOWN_REQUESTED` after the step and was not before was in `UP` before; and a
lower-request to a mechanism in any state other than `UP` leaves all globals
unchanged. -/
theorem down_requested_only_from_up (s : State) (m : Mech) :
    (∀ x : Step, (step s x).1.motorState m = .DOWN_REQUESTED →
      s.motorState m ≠ .DOWN_REQUESTED → s.motorState m = .UP) ∧
    (∀ (n : Int) (now : Nat), s.motorState m ≠ .UP →
      (receiveEvent s n m.reg 0x03 now).1 = s) := by
  constructor
  · intro x hafter hbefore
    cases x with
    | write n a v now =>
      rcases receiveEvent_motorState_cases s n a v now m with h | h
      · exact absurd (h ▸ hafter) hbefore
      · exact initiateMotorChange_down_requested _ _ _ _ _ _ (h ▸ hafter) hbefore
    | read a => exact absurd hafter hbefore
    | poll c =>
      have h : (loop s c).motorState m = .DOWN_REQUESTED := hafter
      rw [loop_motorState] at h
      exact absurd (handleMotorStates_down_requested _ _ _ _ _ _ h) hbefore
  · intro n now hne
    unfold receiveEvent
    split
    · rfl
    · cases m <;> simp only [State.motorState] at hne <;>
        simp [Mech.reg, initiateMotorChange, hne]

/-- Witness for C8: the accepted lower-request to the head in `UP`, and the
ignored one to the head in `IDLE`. -/
theorem down_requested_only_from_up_witness :
    headUp.motorState .head = .UP ∧
    (receiveEvent boot 2 HEAD_REG 0x03 9).1 = boot :=
  ⟨(down_requested_only_from_up headUp
      .head).1 (.write 2 HEAD_REG 0x03 9) (by decide) (by decide),
   (down_requested_only_from_up boot .head).2 2 9 (by decide)⟩

/-- C9: a redundant control command is a no-op.  A request-control write while
the mode byte is `0x12`, and a leave-control write while it is not `0x12` (in
particular while it is `0x10`, Local), leave all globals unchanged and make no
core call; after such a leave-control in Local mode a control-status read
answers `0x10`.  Hence two consecutive request-control writes, the first one
effective, make exactly the calls of one `AssumeControl`: one `detachInterrupt`
per sensor input and one `ledcAttachPin` per actuator output. -/
theorem redundant_control_is_noop (s : State) (n n2 : Int) (now now2 : Nat) :
    (s.controlledExternally = CONTROL_UNDER_CONTROL →
      receiveEvent s n CONTROL_REG CONTROL_REQUESTED now = (s, [])) ∧
    (s.controlledExternally ≠ CONTROL_UNDER_CONTROL →
      receiveEvent s n CONTROL_REG CONTROL_LEAVE now = (s, [])) ∧
    (s.controlledExternally = CONTROL_IDLE →
      requestEvent (receiveEvent s n CONTROL_REG CONTROL_LEAVE now).1 CONTROL_STATUS
        = [Effect.wireWrite 0x10]) ∧
    (s.controlledExternally ≠ CONTROL_UNDER_CONTROL → 2 ≤ n →
      (run s [.write n CONTROL_REG CONTROL_REQUESTED now,
              .write n2 CONTROL_REG CONTROL_REQUESTED now2]).1
        = { s with controlledExternally := CONTROL_UNDER_CONTROL } ∧
      (run s [.write n CONTROL_REG CONTROL_REQUESTED now,
              .write n2 CONTROL_REG CONTROL_REQUESTED now2]).2
        = [ .detachInterrupt 34, .detachInterrupt 35, .detachInterrupt 32,
            .ledcAttachPin 13 0, .ledcAttachPin 26 2, .ledcAttachPin 25 1,
            .digitalWrite 18 LOW, .digitalWrite 4 LOW ] ∧
      ∀ m : Mech,
        (run s [.write n CONTROL_REG CONTROL_REQUESTED now,
                .write n2 CONTROL_REG CONTROL_REQUESTED now2]).2.count
          (.detachInterrupt (digitalPinToInterrupt m.pinIn)) = 1 ∧
        (run s [.write n CONTROL_REG CONTROL_REQUESTED now,
                .write n2 CONTROL_REG CONTROL_REQUESTED now2]).2.count
          (.ledcAttachPin m.pinOut m.pwmChannel) = 1) := by
  have hleave : s.controlledExternally ≠ CONTROL_UNDER_CONTROL →
      receiveEvent s n CONTROL_REG CONTROL_LEAVE now = (s, []) := by
    intro h
    unfold receiveEvent
    split
    · rfl
    · simp [h]
  refine ⟨?_, hleave, ?_, ?_⟩
  · intro h
    unfold receiveEvent
    split
    · rfl
    · simp [h]
  · intro h
    have hne : s.controlledExternally ≠ CONTROL_UNDER_CONTROL := by rw [h]; decide
    rw [hleave hne]
    simp [requestEvent, h]
  · intro h hn
    have h1 : ¬ n < 2 := not_lt.mpr hn
    have htr : run s [.write n CONTROL_REG CONTROL_REQUESTED now,
        .write n2 CONTROL_REG CONTROL_REQUESTED now2]
        = ({ s with controlledExternally := CONTROL_UNDER_CONTROL }, AssumeControl) := by
      by_cases h2 : n2 < 2 <;> simp [run, step, receiveEvent, h, h1, h2]
    rw [htr]
    refine ⟨rfl, rfl, ?_⟩
    intro m
    show AssumeControl.count _ = 1 ∧ AssumeControl.count _ = 1
    cases m <;> decide

/-- Witness for C9: under external control a request-control write changes
nothing; from the boot state, a leave-control write changes nothing and two
request-control writes leave the mode byte `0x12`. -/
theorem redundant_control_is_noop_witness :
    receiveEvent underControl 2 CONTROL_REG CONTROL_REQUESTED 0 = (underControl, []) ∧
    receiveEvent boot 2 CONTROL_REG CONTROL_LEAVE 0 = (boot, []) ∧
    requestEvent (receiveEvent boot 2 CONTROL_REG CONTROL_LEAVE 0).1 CONTROL_STATUS
      = [Effect.wireWrite 0x10] ∧
    (run boot [.write 2 CONTROL_REG CONTROL_REQUESTED 0,
               .write 2 CONTROL_REG CONTROL_REQUESTED 5]).1
      = { boot with controlledExternally := CONTROL_UNDER_CONTROL } :=
  ⟨(redundant_control_is_noop underControl 2 2 0 5).1 rfl,
   (redundant_control_is_noop boot 2 2 0 5).2.1 (by decide),
   (redundant_control_is_noop boot 2 2 0 5).2.2.1 rfl,
   ((redundant_control_is_noop boot 2 2 0 5).2.2.2 (by decide) (by decide)).1⟩

/-- C10: at every point of the sequence of core calls made by `setup` and then
by any sequence of bus writes, bus reads and passes of `loop` from the boot
state, the points inside `AssumeControl` and `EndExternalControl` included, no
mechanism has both a routine attached to the interrupt of its sensor input and
an LEDC channel attached to its actuator output.  `AssumeControl` detaches the
three interrupts before it attaches any channel, and `EndExternalControl`
detaches the three channels before it attaches any interrupt. -/
theorem owners_never_overlap (xs : List Step) (k : Nat) (m : Mech) :
    (((runEffects Hw.powerOn ((setup ++ (run boot xs).2).take k)).isr
        (digitalPinToInterrupt m.pinIn)).isSome &&
      ((runEffects Hw.powerOn ((setup ++ (run boot xs).2).take k)).pwmPin
        m.pinOut).isSome) = false ∧
    AssumeControl =
      [ .detachInterrupt 34, .detachInterrupt 35, .detachInterrupt 32,
        .ledcAttachPin 13 0, .ledcAttachPin 26 2, .ledcAttachPin 25 1,
        .digitalWrite 18 LOW, .digitalWrite 4 LOW ] ∧
    EndExternalControl =
      [ .digitalWrite 18 HIGH, .digitalWrite 4 HIGH,
        .ledcDetachPin 13, .ledcDetachPin 26, .ledcDetachPin 25,
        .pinMode 13 .OUTPUT, .pinMode 26 .OUTPUT, .pinMode 25 .OUTPUT,
        .pinMode 34 .INPUT, .pinMode 35 .INPUT, .pinMode 32 .INPUT,
        .attachInterrupt 34 .handleInterruptTail .CHANGE,
        .attachInterrupt 35 .handleInterruptMouth .CHANGE,
        .attachInterrupt 32 .handleInterruptHead .CHANGE ] := by
  refine ⟨?_, rfl, rfl⟩
  obtain ⟨s1, s2⟩ := setup_exclusive
  have hboot : ownersAgree boot (runEffects Hw.powerOn setup) :=
    ⟨fun hc => absurd hc (by decide), fun _ => s2⟩
  obtain ⟨r1, -⟩ := run_exclusive xs boot (runEffects Hw.powerOn setup) hboot
  have hall := exclusiveAlong_append setup (run boot xs).2 Hw.powerOn s1 r1
  exact exclusiveAlong_take _ Hw.powerOn k hall m

/-! ## Auxiliary facts on the mode and the pin configuration -/

theorem allIsr_iff (h : Hw) :
    allIsr h ↔ h.isr 32 = some (.handleInterruptHead, .CHANGE) ∧
      h.isr 34 = some (.handleInterruptTail, .CHANGE) ∧
      h.isr 35 = some (.handleInterruptMouth, .CHANGE) := by
  constructor
  · intro hx; exact ⟨hx .head, hx .tail, hx .mouth⟩
  · rintro ⟨a, b, c⟩ m; cases m <;> assumption

theorem allPwm_iff (h : Hw) :
    allPwm h ↔ h.pwmPin 26 = some 2 ∧ h.pwmPin 13 = some 0 ∧ h.pwmPin 25 = some 1 := by
  constructor
  · intro hx; exact ⟨hx .head, hx .tail, hx .mouth⟩
  · rintro ⟨a, b, c⟩ m; cases m <;> assumption

/-- Whatever the configuration before, after `AssumeControl` no routine is
attached, every output has its channel, and both relay outputs are `LOW`. -/
theorem AssumeControl_owns (h : Hw) :
    noIsr (runEffects h AssumeControl) ∧ allPwm (runEffects h AssumeControl) ∧
    (runEffects h AssumeControl).level relay1Out = some LOW ∧
    (runEffects h AssumeControl).level relay2Out = some LOW := by
  simp [noIsr_iff, allPwm_iff, runEffects, AssumeControl, DetachInterrupts, switchAudio,
    applyEffect, digitalPinToInterrupt]

/-- Whatever the configuration before, after `EndExternalControl` every routine
is attached, no output has a channel, and both relay outputs are `HIGH`. -/
theorem EndExternalControl_owns (h : Hw) :
    allIsr (runEffects h EndExternalControl) ∧ noPwm (runEffects h EndExternalControl) ∧
    (runEffects h EndExternalControl).level relay1Out = some HIGH ∧
    (runEffects h EndExternalControl).level relay2Out = some HIGH := by
  simp [allIsr_iff, noPwm_iff, runEffects, EndExternalControl, AttachInterrupts, switchAudio,
    applyEffect, digitalPinToInterrupt]

/-- After `setup` every routine is attached, no output has a channel, and both
relay outputs are `HIGH`. -/
theorem setup_owns :
    allIsr (runEffects Hw.powerOn setup) ∧ noPwm (runEffects Hw.powerOn setup) ∧
    (runEffects Hw.powerOn setup).level relay1Out = some HIGH ∧
    (runEffects Hw.powerOn setup).level relay2Out = some HIGH := by
  simp [allIsr_iff, noPwm_iff, runEffects, setup, AttachInterrupts, switchAudio,
    applyEffect, digitalPinToInterrupt, Hw.powerOn]

/-- An effective request-control write: the new globals and the calls made. -/
theorem receiveEvent_request_control (s : State) (n : Int) (now : Nat) (hn : 2 ≤ n)
    (hm : s.controlledExternally ≠ CONTROL_UNDER_CONTROL) :
    receiveEvent s n CONTROL_REG CONTROL_REQUESTED now =
      ({ s with controlledExternally := CONTROL_UNDER_CONTROL }, AssumeControl) := by
  have h1 : ¬ n < 2 := not_lt.mpr hn
  simp [receiveEvent, h1, hm]

/-- An effective leave-control write: the new globals and the calls made. -/
theorem receiveEvent_leave_control (s : State) (n : Int) (now : Nat) (hn : 2 ≤ n)
    (hm : s.controlledExternally = CONTROL_UNDER_CONTROL) :
    receiveEvent s n CONTROL_REG CONTROL_LEAVE now =
      ({ s with controlledExternally := CONTROL_IDLE }, EndExternalControl) := by
  have h1 : ¬ n < 2 := not_lt.mpr hn
  simp [receiveEvent, h1, hm]

/-! ## The claims, continued -/

/-- C11: in Local mode a request-control write sets the mode byte to `0x12`,
leaves no routine attached to the interrupt of any sensor input, attaches each
actuator output to its own channel (tail 13 to 0, mouth 25 to 1, head 26 to 2)
and writes `LOW` to both relay outputs, where `setup` wrote `HIGH`; a following
control-status read answers `0x12`. -/
theorem request_control_takes_outputs (s : State) (h : Hw) (n : Int) (now : Nat)
    (hn : 2 ≤ n) (hloc : s.controlledExternally = CONTROL_IDLE) :
    (receiveEvent s n CONTROL_REG 0x11 now).1
      = { s with controlledExternally := 0x12 } ∧
    (∀ m : Mech, (runEffects h (receiveEvent s n CONTROL_REG 0x11 now).2).isr
        (digitalPinToInterrupt m.pinIn) = none) ∧
    (∀ m : Mech, (runEffects h (receiveEvent s n CONTROL_REG 0x11 now).2).pwmPin m.pinOut
        = some m.pwmChannel) ∧
    (Mech.tail.pinOut = 13 ∧ Mech.tail.pwmChannel = 0) ∧
    (Mech.mouth.pinOut = 25 ∧ Mech.mouth.pwmChannel = 1) ∧
    (Mech.head.pinOut = 26 ∧ Mech.head.pwmChannel = 2) ∧
    (runEffects h (receiveEvent s n CONTROL_REG 0x11 now).2).level relay1Out = some LOW ∧
    (runEffects h (receiveEvent s n CONTROL_REG 0x11 now).2).level relay2Out = some LOW ∧
    (runEffects Hw.powerOn setup).level relay1Out = some HIGH ∧
    (runEffects Hw.powerOn setup).level relay2Out = some HIGH ∧
    LOW ≠ HIGH ∧
    (receiveEvent s n CONTROL_REG 0x11 now).2
      = [ .detachInterrupt 34, .detachInterrupt 35, .detachInterrupt 32,
          .ledcAttachPin 13 0, .ledcAttachPin 26 2, .ledcAttachPin 25 1,
          .digitalWrite 18 LOW, .digitalWrite 4 LOW ] ∧
    requestEvent (receiveEvent s n CONTROL_REG 0x11 now).1 CONTROL_STATUS
      = [Effect.wireWrite 0x12] := by
  have hne : s.controlledExternally ≠ CONTROL_UNDER_CONTROL := by rw [hloc]; decide
  have hr := receiveEvent_request_control s n now hn hne
  have hr2 : receiveEvent s n CONTROL_REG 0x11 now
      = ({ s with controlledExternally := CONTROL_UNDER_CONTROL }, AssumeControl) := hr
  rw [hr2]
  obtain ⟨a1, a2, a3, a4⟩ := AssumeControl_owns h
  obtain ⟨-, -, b3, b4⟩ := setup_owns
  exact ⟨rfl, a1, a2, ⟨rfl, rfl⟩, ⟨rfl, rfl⟩, ⟨rfl, rfl⟩, a3, a4, b3, b4, by decide, rfl, rfl⟩

/-- Witness for C11: the boot state and the configuration that `setup` leaves. -/
theorem request_control_takes_outputs_witness :
    boot.controlledExternally = CONTROL_IDLE ∧
    (receiveEvent boot 2 CONTROL_REG 0x11 0).1.controlledExternally = 0x12 ∧
    (runEffects (runEffects Hw.powerOn setup) (receiveEvent boot 2 CONTROL_REG 0x11 0).2).pwmPin
        Mech.head.pinOut = some Mech.head.pwmChannel ∧
    requestEvent (receiveEvent boot 2 CONTROL_REG 0x11 0).1 CONTROL_STATUS
      = [Effect.wireWrite 0x12] :=
  ⟨rfl,
   congrArg State.controlledExternally
     (request_control_takes_outputs boot (runEffects Hw.powerOn setup) 2 0 (by decide) rfl).1,
   (request_control_takes_outputs boot (runEffects Hw.powerOn setup) 2 0 (by decide) rfl).2.2.1
     .head,
   (request_control_takes_outputs boot (runEffects Hw.powerOn setup) 2 0 (by decide)
     rfl).2.2.2.2.2.2.2.2.2.2.2.2⟩

/-- After `setup`, the calls of `AssumeControl` followed by those of
`EndExternalControl` lead back to the configuration that `setup` left, in every
component of `Hw`. -/
theorem assume_then_end_restores_setup :
    runEffects Hw.powerOn (setup ++ (AssumeControl ++ EndExternalControl))
      = runEffects Hw.powerOn setup := by
  simp only [runEffects, setup, AssumeControl, EndExternalControl, DetachInterrupts,
    AttachInterrupts, switchAudio, List.cons_append, List.nil_append, List.foldl_cons,
    List.foldl_nil, applyEffect, Hw.powerOn, digitalPinToInterrupt, Hw.mk.injEq]
  refine ⟨?_, ?_, ?_, ?_, ?_, ?_, ?_, ?_⟩
  · funext p
    by_cases h1 : p = 13 <;> by_cases h2 : p = 26 <;> by_cases h3 : p = 25 <;>
      by_cases h4 : p = 34 <;> by_cases h5 : p = 35 <;> by_cases h6 : p = 32 <;> simp [*]
  · funext p
    by_cases h1 : p = 18 <;> by_cases h2 : p = 4 <;> simp [*]
  · funext p
    by_cases h4 : p = 34 <;> by_cases h5 : p = 35 <;> by_cases h6 : p = 32 <;> simp [*]
  · funext p
    by_cases h1 : p = 13 <;> by_cases h2 : p = 26 <;> by_cases h3 : p = 25 <;> simp [*]
  all_goals trivial

/-- C12: from the boot state and the configuration that `setup` leaves, a
request-control write followed by a leave-control write makes the calls of
`AssumeControl` and then of `EndExternalControl`, and ends with the boot globals
(mode byte `0x10`) and with the very configuration that `setup` left: the same
routine on `CHANGE` on each sensor input, the same pin modes, no channel
attached to any actuator output, and both relay outputs at `HIGH` again. -/
theorem release_restores_boot_configuration (n1 n2 : Int) (t1 t2 : Nat)
    (h1 : 2 ≤ n1) (h2 : 2 ≤ n2) :
    (run boot [.write n1 CONTROL_REG 0x11 t1, .write n2 CONTROL_REG 0x13 t2]).2
      = AssumeControl ++ EndExternalControl ∧
    (run boot [.write n1 CONTROL_REG 0x11 t1, .write n2 CONTROL_REG 0x13 t2]).1 = boot ∧
    (run boot [.write n1 CONTROL_REG 0x11 t1, .write n2 CONTROL_REG 0x13 t2]).1.controlledExternally
      = 0x10 ∧
    runEffects Hw.powerOn
        (setup ++ (run boot [.write n1 CONTROL_REG 0x11 t1, .write n2 CONTROL_REG 0x13 t2]).2)
      = runEffects Hw.powerOn setup ∧
    (∀ m : Mech,
      (runEffects Hw.powerOn (setup ++
          (run boot [.write n1 CONTROL_REG 0x11 t1, .write n2 CONTROL_REG 0x13 t2]).2)).isr
        (digitalPinToInterrupt m.pinIn) = some (m.isr, .CHANGE) ∧
      (runEffects Hw.powerOn setup).isr (digitalPinToInterrupt m.pinIn)
        = some (m.isr, .CHANGE)) ∧
    (∀ pin : Nat,
      (runEffects Hw.powerOn (setup ++
          (run boot [.write n1 CONTROL_REG 0x11 t1, .write n2 CONTROL_REG 0x13 t2]).2)).mode pin
        = (runEffects Hw.powerOn setup).mode pin) ∧
    (∀ m : Mech,
      (runEffects Hw.powerOn (setup ++
          (run boot [.write n1 CONTROL_REG 0x11 t1, .write n2 CONTROL_REG 0x13 t2]).2)).pwmPin
        m.pinOut = none) ∧
    ((runEffects Hw.powerOn (setup ++
          (run boot [.write n1 CONTROL_REG 0x11 t1, .write n2 CONTROL_REG 0x13 t2]).2)).level
        relay1Out = some HIGH ∧
      (runEffects Hw.powerOn setup).level relay1Out = some HIGH) ∧
    ((runEffects Hw.powerOn (setup ++
          (run boot [.write n1 CONTROL_REG 0x11 t1, .write n2 CONTROL_REG 0x13 t2]).2)).level
        relay2Out = some HIGH ∧
      (runEffects Hw.powerOn setup).level relay2Out = some HIGH) := by
  have hb : boot.controlledExternally ≠ CONTROL_UNDER_CONTROL := by decide
  have e1 := receiveEvent_request_control boot n1 t1 h1 hb
  have e2 := receiveEvent_leave_control { boot with controlledExternally := CONTROL_UNDER_CONTROL }
    n2 t2 h2 rfl
  have hrun : run boot [.write n1 CONTROL_REG 0x11 t1, .write n2 CONTROL_REG 0x13 t2]
      = (boot, AssumeControl ++ EndExternalControl) := by
    simp only [run, step]
    rw [e1]
    simp only []
    rw [e2]
    simp [boot]
  rw [hrun]
  have hcfg := assume_then_end_restores_setup
  obtain ⟨s1, s2, s3, s4⟩ := setup_owns
  refine ⟨rfl, rfl, rfl, hcfg, ?_, ?_, ?_, ?_, ?_⟩
  · intro m
    simp only []
    rw [hcfg]
    exact ⟨s1 m, s1 m⟩
  · intro pin
    simp only []
    rw [hcfg]
  · intro m
    simp only []
    rw [hcfg]
    exact s2 m
  · simp only []
    rw [hcfg]
    exact ⟨s3, s3⟩
  · simp only []
    rw [hcfg]
    exact ⟨s4, s4⟩

/-- Witness for C12: two-byte writes at times 10 and 20. -/
theorem release_restores_boot_configuration_witness :
    (run boot [.write 2 CONTROL_REG 0x11 10, .write 2 CONTROL_REG 0x13 20]).1 = boot ∧
    runEffects Hw.powerOn
        (setup ++ (run boot [.write 2 CONTROL_REG 0x11 10, .write 2 CONTROL_REG 0x13 20]).2)
      = runEffects Hw.powerOn setup :=
  ⟨(release_restores_boot_configuration 2 2 10 20 (by decide) (by decide)).2.1,
   (release_restores_boot_configuration 2 2 10 20 (by decide) (by decide)).2.2.2.1⟩

/-- A step that keeps the mode byte and makes at most one call, a duty write or
a bus write, keeps the mode byte and the pin configuration in agreement. -/
theorem modeOwns_quiet (s t : State) (h : Hw) (tr : List Effect)
    (hmode : t.controlledExternally = s.controlledExternally)
    (htr : tr = [] ∨ (∃ c d, tr = [Effect.ledcWrite c d]) ∨ ∃ b, tr = [Effect.wireWrite b])
    (hinv : modeOwns s h) : modeOwns t (runEffects h tr) := by
  have hinv2 : modeOwns t h := by
    unfold modeOwns at hinv ⊢
    rw [hmode]
    exact hinv
  rcases htr with rfl | ⟨c, d, rfl⟩ | ⟨b, rfl⟩
  · exact hinv2
  · exact hinv2
  · exact hinv2

/-- Every step keeps the mode byte and the pin configuration in agreement. -/
theorem step_modeOwns (s : State) (h : Hw) (x : Step) (hinv : modeOwns s h) :
    modeOwns (step s x).1 (runEffects h (step s x).2) := by
  cases x with
  | read a =>
    refine modeOwns_quiet s _ h _ rfl ?_ hinv
    rcases requestEvent_effects s a with e | e
    · exact Or.inl e
    · exact Or.inr (Or.inr e)
  | poll c => exact modeOwns_quiet s _ h _ (loop_controlledExternally s c) (Or.inl rfl) hinv
  | write n a v now =>
    simp only [step]
    unfold receiveEvent
    split_ifs with h1 h2 h3 h4 h5 h6 h7
    · exact hinv
    · obtain ⟨k1, k2, -, -⟩ := AssumeControl_owns h
      exact Or.inr ⟨rfl, k1, k2⟩
    · obtain ⟨k1, k2, -, -⟩ := EndExternalControl_owns h
      exact Or.inl ⟨rfl, k1, k2⟩
    · exact hinv
    · refine modeOwns_quiet s _ h _ rfl ?_ hinv
      rcases initiateMotorChange_effects v s.headMotorState s.actionStartTimeHead
        headPwmChannel s.headState now with e | e
      · exact Or.inl e
      · exact Or.inr (Or.inl e)
    · refine modeOwns_quiet s _ h _ rfl ?_ hinv
      rcases initiateMotorChange_effects v s.tailMotorState s.actionStartTimeTail
        tailPwmChannel s.headState now with e | e
      · exact Or.inl e
      · exact Or.inr (Or.inl e)
    · refine modeOwns_quiet s _ h _ rfl ?_ hinv
      rcases initiateMotorChange_effects v s.mouthMotorState s.actionStartTimeMouth
        mouthPwmChannel s.headState now with e | e
      · exact Or.inl e
      · exact Or.inr (Or.inl e)
    · exact hinv

/-- Every sequence of steps keeps the mode byte and the pin configuration in
agreement. -/
theorem run_modeOwns (xs : List Step) :
    ∀ (s : State) (h : Hw), modeOwns s h →
      modeOwns (run s xs).1 (runEffects h (run s xs).2) := by
  induction xs with
  | nil => intro s h hinv; exact hinv
  | cons x xs ih =>
    intro s h hinv
    have a := step_modeOwns s h x hinv
    have b := ih (step s x).1 (runEffects h (step s x).2) a
    simp only [run]
    rw [runEffects_append]
    exact b

/-- C13: after `setup` and any sequence of bus writes, bus reads and passes of
`loop` from the boot state, the three routines are attached to the interrupts
of their sensor inputs exactly when the mode byte is `0x10`, and the three
channels are attached to their actuator outputs exactly when the mode byte is
`0x12`; the mode byte is one of the two, and the owner that is not in charge
is attached nowhere. -/
theorem mode_agrees_with_ownership (xs : List Step) :
    ((∀ m : Mech, (runEffects Hw.powerOn (setup ++ (run boot xs).2)).isr
          (digitalPinToInterrupt m.pinIn) = some (m.isr, .CHANGE))
      ↔ (run boot xs).1.controlledExternally = 0x10) ∧
    ((∀ m : Mech, (runEffects Hw.powerOn (setup ++ (run boot xs).2)).pwmPin m.pinOut
          = some m.pwmChannel)
      ↔ (run boot xs).1.controlledExternally = 0x12) ∧
    ((run boot xs).1.controlledExternally = 0x10 ∨
      (run boot xs).1.controlledExternally = 0x12) ∧
    ((∀ m : Mech, (runEffects Hw.powerOn (setup ++ (run boot xs).2)).pwmPin m.pinOut = none)
      ↔ (run boot xs).1.controlledExternally = 0x10) ∧
    ((∀ m : Mech, (runEffects Hw.powerOn (setup ++ (run boot xs).2)).isr
          (digitalPinToInterrupt m.pinIn) = none)
      ↔ (run boot xs).1.controlledExternally = 0x12) := by
  obtain ⟨s1, s2, -, -⟩ := setup_owns
  have hboot : modeOwns boot (runEffects Hw.powerOn setup) := Or.inl ⟨rfl, s1, s2⟩
  have hinv := run_modeOwns xs boot (runEffects Hw.powerOn setup) hboot
  rw [← runEffects_append] at hinv
  rcases hinv with ⟨hm, hi, hp⟩ | ⟨hm, hi, hp⟩
  · have hne : (run boot xs).1.controlledExternally ≠ 0x12 := by rw [hm]; decide
    refine ⟨⟨fun _ => hm, fun _ => hi⟩, ⟨fun hall => ?_, fun hc => absurd hc hne⟩,
      Or.inl hm, ⟨fun _ => hm, fun _ => hp⟩, ⟨fun hnone => ?_, fun hc => absurd hc hne⟩⟩
    · have := hall .head
      rw [hp .head] at this
      cases this
    · have := hnone .head
      rw [hi .head] at this
      cases this
  · have hne : (run boot xs).1.controlledExternally ≠ 0x10 := by rw [hm]; decide
    refine ⟨⟨fun hall => ?_, fun hc => absurd hc hne⟩, ⟨fun _ => hm, fun _ => hp⟩,
      Or.inr hm, ⟨fun hnone => ?_, fun hc => absurd hc hne⟩, ⟨fun _ => hm, fun _ => hi⟩⟩
    · have := hall .head
      rw [hi .head] at this
      cases this
    · have := hnone .head
      rw [hp .head] at this
      cases this

/-- C14: a malformed or unrecognised write changes nothing.  With fewer than two
bytes available, or with an address other than `0x02`, `0x04`, `0x03` and
`0x01`, or with the control address `0x02` and a value other than `0x11` and
`0x13`, `receiveEvent` leaves all globals unchanged and makes no core call. -/
theorem malformed_write_changes_nothing (s : State) (n : Int) (a v now : Nat)
    (h : n < 2 ∨ (a ≠ 0x02 ∧ a ≠ 0x04 ∧ a ≠ 0x03 ∧ a ≠ 0x01) ∨
      (a = 0x02 ∧ v ≠ 0x11 ∧ v ≠ 0x13)) :
    receiveEvent s n a v now = (s, []) := by
  unfold receiveEvent
  rcases h with h | ⟨h1, h2, h3, h4⟩ | ⟨h1, h2, h3⟩
  · simp [h]
  · split
    · rfl
    · simp [h1, h2, h3, h4]
  · split
    · rfl
    · simp [h1, h2, h3]

/-- Witness for C14: one byte only; the unknown address `0x05`; the control
address with the value `0x12`. -/
theorem malformed_write_changes_nothing_witness :
    receiveEvent headUp 1 HEAD_REG 0x03 0 = (headUp, []) ∧
    receiveEvent boot 2 0x05 0x01 0 = (boot, []) ∧
    receiveEvent boot 2 CONTROL_REG 0x12 0 = (boot, []) :=
  ⟨malformed_write_changes_nothing headUp 1 HEAD_REG 0x03 0 (Or.inl (by decide)),
   malformed_write_changes_nothing boot 2 0x05 0x01 0 (Or.inr (Or.inl (by decide))),
   malformed_write_changes_nothing boot 2 CONTROL_REG 0x12 0 (Or.inr (Or.inr (by decide)))⟩

/-- C15: `requestEvent` writes exactly one byte for a recognised status
address and none otherwise: `0x51` yields the mode byte, `0x53` the head status
byte, `0x52` the tail status byte, `0x50` the mouth status byte, and any other
address yields no byte. -/
theorem status_read_answers (s : State) (a : Nat) :
    requestEvent s 0x51 = [Effect.wireWrite s.controlledExternally] ∧
    requestEvent s 0x53 = [Effect.wireWrite s.headState] ∧
    requestEvent s 0x52 = [Effect.wireWrite s.tailState] ∧
    requestEvent s 0x50 = [Effect.wireWrite s.mouthState] ∧
    (a ≠ 0x51 ∧ a ≠ 0x53 ∧ a ≠ 0x52 ∧ a ≠ 0x50 → requestEvent s a = []) ∧
    (a = 0x51 ∨ a = 0x53 ∨ a = 0x52 ∨ a = 0x50 → (requestEvent s a).length = 1) := by
  refine ⟨rfl, rfl, rfl, rfl, ?_, ?_⟩
  · rintro ⟨h1, h2, h3, h4⟩
    simp [requestEvent, h1, h2, h3, h4]
  · rintro (h | h | h | h) <;> subst h <;> rfl

/-- Witness for C15: the unknown address `0x54`, and the tail status address. -/
theorem status_read_answers_witness :
    requestEvent tailDown 0x54 = [] ∧ (requestEvent tailDown 0x52).length = 1 ∧
    requestEvent tailDown 0x52 = [Effect.wireWrite 0x04] :=
  ⟨(status_read_answers tailDown 0x54).2.2.2.2.1 (by decide),
   (status_read_answers tailDown 0x52).2.2.2.2.2 (by decide),
   (status_read_answers tailDown 0x52).2.2.1⟩

/-- C16: the routine of each mechanism makes exactly two core calls, one
`digitalRead` of that mechanism's sensor input and one `digitalWrite` of the
level read to that mechanism's actuator output (tail 34 to 13, mouth 35 to 25,
head 32 to 26), and leaves all globals, hence the mode byte and every
mechanism's state, timestamp and status byte, unchanged. -/
theorem isr_mirrors_input (s : State) (digitalRead : Nat → Nat) (m : Mech) :
    m.isr.run s digitalRead
      = (s, [.digitalRead m.pinIn, .digitalWrite m.pinOut (digitalRead m.pinIn)]) ∧
    handleInterruptTail s digitalRead
      = (s, [.digitalRead 34, .digitalWrite 13 (digitalRead 34)]) ∧
    handleInterruptMouth s digitalRead
      = (s, [.digitalRead 35, .digitalWrite 25 (digitalRead 35)]) ∧
    handleInterruptHead s digitalRead
      = (s, [.digitalRead 32, .digitalWrite 26 (digitalRead 32)]) ∧
    (Mech.tail.pinIn = 34 ∧ Mech.tail.pinOut = 13) ∧
    (Mech.mouth.pinIn = 35 ∧ Mech.mouth.pinOut = 25) ∧
    (Mech.head.pinIn = 32 ∧ Mech.head.pinOut = 26) := by
  refine ⟨?_, rfl, rfl, rfl, ⟨rfl, rfl⟩, ⟨rfl, rfl⟩, ⟨rfl, rfl⟩⟩
  cases m <;> rfl

/-! ## Auxiliary facts on the ranges of the globals -/

theorem handleMotorStates_inRange (ms : MotorState) (st a b ts now : Nat)
    (hs : statusInMap st) (hm : recognised ms) :
    statusInMap (handleMotorStates ms st a b ts now).2 ∧
    recognised (handleMotorStates ms st a b ts now).1 := by
  unfold statusInMap recognised at *
  cases ms <;> simp [handleMotorStates] at hm ⊢
  · exact hs
  · exact hs
  · split_ifs <;> simp [hs]
  · split_ifs <;> simp [hs]

theorem loop_inRange (s : State) (c : Mech → Nat) (h : inRange s) : inRange (loop s c) := by
  refine ⟨h.1, fun m => ?_⟩
  rw [loop_status, loop_motorState]
  exact handleMotorStates_inRange _ _ _ _ _ _ (h.2 m).1 (h.2 m).2

theorem initiateMotorChange_inRange (v : Nat) (ms : MotorState) (st ch hs now : Nat)
    (h1 : statusInMap hs) (h2 : recognised ms) :
    statusInMap (initiateMotorChange v ms st ch hs now).headState ∧
    recognised (initiateMotorChange v ms st ch hs now).motorState := by
  unfold statusInMap recognised at *
  unfold initiateMotorChange
  split_ifs <;> simp [h1, h2]

/-- After a bus write, a status byte is what it was, or is the head status byte
as `initiateMotorChange` leaves it. -/
theorem receiveEvent_status_cases (s : State) (n : Int) (a v now : Nat) (m : Mech) :
    (receiveEvent s n a v now).1.status m = s.status m ∨
    ∃ ms st ch, (receiveEvent s n a v now).1.status m =
      (initiateMotorChange v ms st ch s.headState now).headState := by
  unfold receiveEvent
  split_ifs
  · exact Or.inl rfl
  · exact Or.inl rfl
  · exact Or.inl rfl
  · exact Or.inl rfl
  · cases m
    · exact Or.inr ⟨_, _, _, rfl⟩
    · exact Or.inl rfl
    · exact Or.inl rfl
  · cases m
    · exact Or.inr ⟨_, _, _, rfl⟩
    · exact Or.inl rfl
    · exact Or.inl rfl
  · cases m
    · exact Or.inr ⟨_, _, _, rfl⟩
    · exact Or.inl rfl
    · exact Or.inl rfl
  · exact Or.inl rfl

theorem receiveEvent_mode_cases (s : State) (n : Int) (a v now : Nat) :
    (receiveEvent s n a v now).1.controlledExternally = s.controlledExternally ∨
    (receiveEvent s n a v now).1.controlledExternally = CONTROL_IDLE ∨
    (receiveEvent s n a v now).1.controlledExternally = CONTROL_UNDER_CONTROL := by
  unfold receiveEvent
  split_ifs <;> simp

theorem receiveEvent_inRange (s : State) (n : Int) (a v now : Nat) (h : inRange s) :
    inRange (receiveEvent s n a v now).1 := by
  refine ⟨?_, fun m => ⟨?_, ?_⟩⟩
  · rcases receiveEvent_mode_cases s n a v now with e | e | e
    · rw [e]; exact h.1
    · exact Or.inl e
    · exact Or.inr e
  · rcases receiveEvent_status_cases s n a v now m with e | ⟨ms, st, ch, e⟩
    · rw [e]; exact (h.2 m).1
    · rw [e]
      unfold initiateMotorChange
      have hh : statusInMap s.headState := (h.2 .head).1
      unfold statusInMap at *
      split_ifs <;> simp [hh]
  · rcases receiveEvent_motorState_cases s n a v now m with e | e
    · rw [e]; exact (h.2 m).2
    · rw [e]
      exact (initiateMotorChange_inRange _ _ _ _ _ _ (h.2 .head).1 (h.2 m).2).2

theorem step_inRange (s : State) (x : Step) (h : inRange s) : inRange (step s x).1 := by
  cases x with
  | write n a v now => exact receiveEvent_inRange s n a v now h
  | read a => exact h
  | poll c => exact loop_inRange s c h

theorem run_inRange (xs : List Step) : ∀ s : State, inRange s → inRange (run s xs).1 := by
  induction xs with
  | nil => intro s h; exact h
  | cons x xs ih => intro s h; exact ih (step s x).1 (step_inRange s x h)

theorem boot_inRange : inRange boot := by
  refine ⟨Or.inl rfl, fun m => ⟨?_, ?_⟩⟩
  · cases m <;> exact Or.inl rfl
  · cases m <;> exact Or.inl rfl

/-- C17: at boot the mode byte is `0x10` and every status byte is `0x00`; after
any sequence of bus writes, bus reads and passes of `loop` from the boot state
the mode byte is `0x10` or `0x12` and every mechanism's status byte is one of
`0x00`, `0x01`, `0x02`, `0x03`, `0x04`, so a read of the control-status address
or of a mechanism's status address answers one byte of the register map. -/
theorem status_bytes_stay_in_register_map (xs : List Step) (m : Mech) :
    boot.controlledExternally = 0x10 ∧
    (boot.status .head = 0x00 ∧ boot.status .tail = 0x00 ∧ boot.status .mouth = 0x00) ∧
    ((run boot xs).1.controlledExternally = 0x10 ∨
      (run boot xs).1.controlledExternally = 0x12) ∧
    ((run boot xs).1.status m = 0x00 ∨ (run boot xs).1.status m = 0x01 ∨
      (run boot xs).1.status m = 0x02 ∨ (run boot xs).1.status m = 0x03 ∨
      (run boot xs).1.status m = 0x04) ∧
    (requestEvent (run boot xs).1 CONTROL_STATUS = [Effect.wireWrite 0x10] ∨
      requestEvent (run boot xs).1 CONTROL_STATUS = [Effect.wireWrite 0x12]) ∧
    (requestEvent (run boot xs).1 m.statusReg = [Effect.wireWrite 0x00] ∨
      requestEvent (run boot xs).1 m.statusReg = [Effect.wireWrite 0x01] ∨
      requestEvent (run boot xs).1 m.statusReg = [Effect.wireWrite 0x02] ∨
      requestEvent (run boot xs).1 m.statusReg = [Effect.wireWrite 0x03] ∨
      requestEvent (run boot xs).1 m.statusReg = [Effect.wireWrite 0x04]) := by
  obtain ⟨hmode, hall⟩ := run_inRange xs boot boot_inRange
  have hst : statusInMap ((run boot xs).1.status m) := (hall m).1
  refine ⟨rfl, ⟨rfl, rfl, rfl⟩, hmode, hst, ?_, ?_⟩
  · have hreq : requestEvent (run boot xs).1 CONTROL_STATUS
        = [Effect.wireWrite (run boot xs).1.controlledExternally] := rfl
    rw [hreq]
    rcases hmode with e | e
    · exact Or.inl (by rw [e])
    · exact Or.inr (by rw [e])
  · rw [requestEvent_statusReg]
    rcases hst with e | e | e | e | e <;> rw [e] <;> simp

/-- C18: after any sequence of bus writes, bus reads and passes of `loop` from
the boot state, every mechanism's `MotorState` is one of `IDLE`,
`UP_REQUESTED`, `UP`, `DOWN_REQUESTED`, `DOWN` and never `UNKNOWN_STATE`, so
`handleMotorStates` is never entered with a value it has no case for; entered
with `UNKNOWN_STATE`, it returns the state and the status byte unchanged. -/
theorem default_case_unreachable (xs : List Step) (m : Mech) :
    ((run boot xs).1.motorState m = .IDLE ∨ (run boot xs).1.motorState m = .UP_REQUESTED ∨
      (run boot xs).1.motorState m = .UP ∨ (run boot xs).1.motorState m = .DOWN_REQUESTED ∨
      (run boot xs).1.motorState m = .DOWN) ∧
    (run boot xs).1.motorState m ≠ .UNKNOWN_STATE ∧
    ∀ st a b ts now : Nat,
      handleMotorStates .UNKNOWN_STATE st a b ts now = (.UNKNOWN_STATE, st) := by
  obtain ⟨-, hall⟩ := run_inRange xs boot boot_inRange
  have hr : recognised ((run boot xs).1.motorState m) := (hall m).2
  refine ⟨hr, ?_, fun _ _ _ _ _ => rfl⟩
  intro hu
  rw [hu] at hr
  rcases hr with e | e | e | e | e <;> cases e

/-- The `unsigned long` difference recovers the true elapsed time across a wrap
of the counter. -/
theorem usub_wrap (t0 d : Nat) (hd : d < ULONG_MOD) :
    usub ((t0 + d) % ULONG_MOD) t0 = d := by
  simp only [usub, ULONG_MOD] at *
  omega

/-- C19: the settle-delay test is right across a wrap of the 32-bit millisecond
counter.  For every timestamp `t0` and every true elapsed time `d` below `2^32`,
a pass of `loop` that reads the counter value `(t0 + d) mod 2^32` computes the
elapsed time `d`, takes `UP_REQUESTED` to `UP` exactly when `d` is at least the
startup delay and `DOWN_REQUESTED` to `DOWN` exactly when `d` is at least the
spring delay, also when `t0 + d` exceeds `2^32`. -/
theorem settle_test_survives_wraparound (s : State) (m : Mech) (c : Mech → Nat) (t0 d : Nat)
    (hd : d < 2 ^ 32) (hts : s.actionStart m = t0) (hc : c m = (t0 + d) % 2 ^ 32) :
    usub (c m) (s.actionStart m) = d ∧
    (s.motorState m = .UP_REQUESTED →
      ((loop s c).motorState m = .UP ↔ d ≥ m.startupTime) ∧
      (¬ d ≥ m.startupTime → (loop s c).motorState m = .UP_REQUESTED)) ∧
    (s.motorState m = .DOWN_REQUESTED →
      ((loop s c).motorState m = .DOWN ↔ d ≥ m.springTime) ∧
      (¬ d ≥ m.springTime → (loop s c).motorState m = .DOWN_REQUESTED)) := by
  have hu : usub (c m) (s.actionStart m) = d := by
    rw [hc, hts]
    exact usub_wrap t0 d hd
  refine ⟨hu, ?_, ?_⟩
  · intro h
    rw [loop_motorState, h]
    by_cases hel : d ≥ m.startupTime <;> simp [handleMotorStates, hu, hel]
  · intro h
    rw [loop_motorState, h]
    by_cases hel : d ≥ m.springTime <;> simp [handleMotorStates, hu, hel]

/-- Witness for C19: the head, raise-requested at counter value 4294967000; 600
ms later the counter has wrapped to 304 and the pass promotes, 599 ms later it
reads 303 and the pass does not. -/
theorem settle_test_survives_wraparound_witness :
    (4294967000 + 600) % 2 ^ 32 = 304 ∧
    (loop headRaisingLate (fun _ => 304)).motorState .head = .UP ∧
    (loop headRaisingLate (fun _ => 303)).motorState .head = .UP_REQUESTED :=
  ⟨by decide,
   ((settle_test_survives_wraparound headRaisingLate .head (fun _ => 304) 4294967000 600
      (by decide) rfl (by decide)).2.1 rfl).1.mpr (by decide),
   ((settle_test_survives_wraparound headRaisingLate .head (fun _ => 303) 4294967000 599
      (by decide) rfl (by decide)).2.1 rfl).2 (by decide)⟩

/-- States that agree on the mechanisms differ in the mode byte at most. -/
theorem sameMechs_eq (s t : State) (h : sameMechs s t) :
    t = { s with controlledExternally := t.controlledExternally } := by
  obtain ⟨a1, a2, a3⟩ := h .head
  obtain ⟨b1, b2, b3⟩ := h .tail
  obtain ⟨c1, c2, c3⟩ := h .mouth
  cases s
  cases t
  simp only [State.motorState, State.actionStart, State.status] at *
  simp [*]

theorem sameMechs_refl (s : State) : sameMechs s s := fun _ => ⟨rfl, rfl, rfl⟩

/-- A write to a mechanism's address reads no mode byte: with another mode byte
put in, it makes the same calls and leaves the same globals but for that byte,
which it does not change. -/
theorem receiveEvent_reg_mode (s : State) (k : Nat) (m : Mech) (n : Int) (v now : Nat) :
    receiveEvent { s with controlledExternally := k } n m.reg v now =
      ({ (receiveEvent s n m.reg v now).1 with controlledExternally := k },
        (receiveEvent s n m.reg v now).2) ∧
    (receiveEvent s n m.reg v now).1.controlledExternally = s.controlledExternally := by
  unfold receiveEvent
  by_cases h : n < 2
  · simp [h]
  · cases m <;> simp [h, Mech.reg]

/-- A write to the control address assigns the mode byte at most. -/
theorem receiveEvent_control_sameMechs (s : State) (n : Int) (v now : Nat) :
    sameMechs s (receiveEvent s n CONTROL_REG v now).1 := by
  unfold receiveEvent
  split
  · exact sameMechs_refl s
  · rw [if_pos rfl]
    split_ifs <;> exact fun _ => ⟨rfl, rfl, rfl⟩

/-- C20: the mechanism state machines and the drive mode are independent.  For
two states that agree on every mechanism's state, timestamp and status byte
(and so differ in the mode byte at most), the same write to a mechanism's
address makes the same core calls, among them the same duty write, and leaves
states that again agree on every mechanism, each with its own mode byte
unchanged; so does the same pass of `loop`.  A write to the control address,
whatever its value, changes no mechanism's state, timestamp or status byte. -/
theorem mechanisms_independent_of_mode (s t : State) (hst : sameMechs s t) :
    (∀ (m : Mech) (n : Int) (v now : Nat),
      (receiveEvent s n m.reg v now).2 = (receiveEvent t n m.reg v now).2 ∧
      sameMechs (receiveEvent s n m.reg v now).1 (receiveEvent t n m.reg v now).1 ∧
      (receiveEvent s n m.reg v now).1.controlledExternally = s.controlledExternally ∧
      (receiveEvent t n m.reg v now).1.controlledExternally = t.controlledExternally) ∧
    (∀ c : Mech → Nat,
      sameMechs (loop s c) (loop t c) ∧
      (loop s c).controlledExternally = s.controlledExternally ∧
      (loop t c).controlledExternally = t.controlledExternally) ∧
    (∀ (n : Int) (v now : Nat),
      sameMechs s (receiveEvent s n CONTROL_REG v now).1 ∧
      sameMechs t (receiveEvent t n CONTROL_REG v now).1) := by
  have ht := sameMechs_eq s t hst
  refine ⟨?_, ?_, ?_⟩
  · intro m n v now
    obtain ⟨e1, e2⟩ := receiveEvent_reg_mode s t.controlledExternally m n v now
    obtain ⟨-, e3⟩ := receiveEvent_reg_mode t t.controlledExternally m n v now
    rw [← ht] at e1
    rw [e1]
    exact ⟨rfl, fun _ => ⟨rfl, rfl, rfl⟩, e2, rfl⟩
  · intro c
    refine ⟨fun m => ?_, rfl, rfl⟩
    rw [loop_motorState, loop_status, loop_actionStart, loop_motorState, loop_status,
      loop_actionStart, (hst m).1, (hst m).2.1, (hst m).2.2]
    exact ⟨rfl, rfl, rfl⟩
  · intro n v now
    exact ⟨receiveEvent_control_sameMechs s n v now, receiveEvent_control_sameMechs t n v now⟩

/-- Witness for C20: the boot state and the boot state under external control;
a raise-request to the tail is accepted in both and makes the same duty write. -/
theorem mechanisms_independent_of_mode_witness :
    sameMechs boot underControl ∧
    (receiveEvent boot 2 TAIL_REG 0x01 7).2 = [Effect.ledcWrite 0 255] ∧
    (receiveEvent boot 2 TAIL_REG 0x01 7).2 = (receiveEvent underControl 2 TAIL_REG 0x01 7).2 ∧
    (receiveEvent underControl 2 TAIL_REG 0x01 7).1.tailMotorState = .UP_REQUESTED :=
  ⟨fun _ => ⟨rfl, rfl, rfl⟩,
   rfl,
   ((mechanisms_independent_of_mode boot underControl (fun _ => ⟨rfl, rfl, rfl⟩)).1
      .tail 2 0x01 7).1,
   rfl⟩

end FishProxy
